import Mathlib

/-! UnrealAnyMap: a verification development

Shallow embedding of `src/UnrealAnyMap.h` (namespace `Cybergem`):

* `FUnrealAnyValueMap<K>`: a `TMap<K, std::any>` from keys of one key type to
  type-erased values.
* `FUnrealAnyMap`: a `TMap<const char*, std::any>` from the type name of a key
  type to the type-erased `FUnrealAnyValueMap<K>` of that key type.

C++ types are represented by codes: `KTy` is the type of (decayed) key types and
`KEl K` the type of keys of key type `K`; `VTy` is the type of (decayed) value
types and `VEl V` the type of values of value type `V`.  `std::decay` is the
identity on such codes.  A template instantiated at `K`, `V` becomes a function
taking the codes `K`, `V` as arguments.  Key equality is `operator==` of the key
type, assumed to be a decidable, lawful equality.  The value types coded in `VTy`
are the types that `std::any` wraps, which excludes `std::any` itself: its
constructor copies an `std::any` argument instead of wrapping it.  The templates
instantiated at `V = std::any` are the separate functions `AddAny` and `GetAny`.

A mutable object is a value that is passed in and returned; a reference
parameter written by the callee (`V& v`) is passed in and returned next to the
result; a pointer is an `Option` (`none` is `nullptr`) holding the pointee.
`int32` element counts are natural numbers, the hint `ExpectedNumElements` is an
integer.
-/

namespace Cybergem

set_option linter.unusedSectionVars false

/-! ## Association lists underlying `TMap` -/

/-- First value stored under key `k` in a list of pairs. -/
def assocFind {K V : Type} [DecidableEq K] (k : K) : List (K × V) → Option V
  | [] => none
  | p :: l => if p.1 = k then some p.2 else assocFind k l

/-- Replace the value of the pair whose key is `k`, in place; nothing changes when
there is no such pair. -/
def assocSet {K V : Type} [DecidableEq K] (k : K) (v : V) : List (K × V) → List (K × V)
  | [] => []
  | p :: l => if p.1 = k then (p.1, v) :: l else p :: assocSet k v l

/-- Drop every pair whose key is `k`. -/
def assocErase {K V : Type} [DecidableEq K] (k : K) : List (K × V) → List (K × V)
  | [] => []
  | p :: l => if p.1 = k then assocErase k l else p :: assocErase k l

/-- Number of pairs whose key is `k`. -/
def assocCount {K V : Type} [DecidableEq K] (k : K) : List (K × V) → Nat
  | [] => 0
  | p :: l => if p.1 = k then assocCount k l + 1 else assocCount k l

/-- The keys of a list of pairs, in order. -/
def assocKeys {K V : Type} (l : List (K × V)) : List K :=
  l.map Prod.fst

theorem assocKeys_assocSet {K V : Type} [DecidableEq K] (k : K) (v : V) (l : List (K × V)) :
    assocKeys (assocSet k v l) = assocKeys l := by
  induction l with
  | nil => rfl
  | cons p l ih =>
    unfold assocSet
    split
    · simp [assocKeys]
    · simpa [assocKeys] using ih

theorem mem_assocKeys_assocErase {K V : Type} [DecidableEq K] (k a : K) (l : List (K × V)) :
    a ∈ assocKeys (assocErase k l) ↔ a ∈ assocKeys l ∧ a ≠ k := by
  induction l with
  | nil => simp [assocErase, assocKeys]
  | cons p l ih =>
    unfold assocErase
    split
    · rename_i h
      rw [ih]
      simp only [assocKeys, List.map_cons, List.mem_cons]
      constructor
      · rintro ⟨h1, h2⟩
        exact ⟨Or.inr h1, h2⟩
      · rintro ⟨h1 | h1, h2⟩
        · exact absurd (h1.trans h) h2
        · exact ⟨h1, h2⟩
    · rename_i h
      have ih2 : a ∈ List.map Prod.fst (assocErase k l) ↔ a ∈ List.map Prod.fst l ∧ a ≠ k := ih
      simp only [assocKeys, List.map_cons, List.mem_cons, ih2]
      constructor
      · rintro (h1 | ⟨h1, h2⟩)
        · exact ⟨Or.inl h1, fun e => h (h1.symm.trans e)⟩
        · exact ⟨Or.inr h1, h2⟩
      · rintro ⟨h1 | h1, h2⟩
        · exact Or.inl h1
        · exact Or.inr ⟨h1, h2⟩

theorem nodup_assocKeys_assocErase {K V : Type} [DecidableEq K] (k : K) (l : List (K × V))
    (h : (assocKeys l).Nodup) : (assocKeys (assocErase k l)).Nodup := by
  induction l with
  | nil => simp [assocErase, assocKeys]
  | cons p l ih =>
    have hp : p.1 ∉ assocKeys l ∧ (assocKeys l).Nodup := by
      simpa [assocKeys] using h
    unfold assocErase
    split
    · exact ih hp.2
    · have hnot : p.1 ∉ assocKeys (assocErase k l) := fun hm =>
        hp.1 ((mem_assocKeys_assocErase k p.1 l).1 hm).1
      have := ih hp.2
      simp only [assocKeys, List.map_cons, List.nodup_cons]
      exact ⟨hnot, this⟩

theorem assocFind_eq_none_iff {K V : Type} [DecidableEq K] (k : K) (l : List (K × V)) :
    assocFind k l = none ↔ k ∉ assocKeys l := by
  induction l with
  | nil => simp [assocFind, assocKeys]
  | cons p l ih =>
    unfold assocFind
    split
    · rename_i h
      simp [assocKeys, h]
    · rename_i h
      rw [ih]
      simp only [assocKeys, List.map_cons, List.mem_cons, not_or]
      constructor
      · intro h1
        exact ⟨fun e => h e.symm, h1⟩
      · intro h1
        exact h1.2

/-! ## `TMap` -/

/-- Modelled from the spec: the engine container `TMap<K, V>` is not part of the
repository; the spec describes it as an order-irrelevant mapping with
add/find/remove/count/clear keyed by equatable keys.  It is a list of pairs in
which no key occurs twice. -/
structure TMap (K V : Type) [DecidableEq K] where
  Pairs : List (K × V)
  unique : (assocKeys Pairs).Nodup

namespace TMap

variable {K V : Type} [DecidableEq K]

/-- Modelled from the spec: a default-constructed `TMap` holds no pair. -/
def empty : TMap K V :=
  ⟨[], List.nodup_nil⟩

/-- Modelled from the spec: `TMap::Find(k)`: pointer to the value stored under
`k`, or `nullptr`. -/
def Find (m : TMap K V) (k : K) : Option V :=
  assocFind k m.Pairs

/-- Modelled from the spec: writing `v` through a pointer obtained from
`Find(k)`: the value stored under `k` is replaced in place. -/
def Assign (m : TMap K V) (k : K) (v : V) : TMap K V :=
  ⟨assocSet k v m.Pairs, by rw [assocKeys_assocSet]; exact m.unique⟩

/-- Modelled from the spec: `TMap::Add(k, v)` / `TMap::Emplace(k, v)`: sets the
value associated with `k`, replacing the value of an existing pair and adding a
pair otherwise. -/
def Add (m : TMap K V) (k : K) (v : V) : TMap K V :=
  match h : assocFind k m.Pairs with
  | some _ => m.Assign k v
  | none =>
    ⟨(k, v) :: m.Pairs, by
      have hk : k ∉ assocKeys m.Pairs := (assocFind_eq_none_iff k m.Pairs).1 h
      have hu := m.unique
      simp only [assocKeys, List.map_cons, List.nodup_cons]
      exact ⟨hk, hu⟩⟩

/-- Modelled from the spec: `TMap::Remove(k)`: removes the pairs with key `k` and
returns how many were removed. -/
def Remove (m : TMap K V) (k : K) : TMap K V × Nat :=
  (⟨assocErase k m.Pairs, nodup_assocKeys_assocErase k m.Pairs m.unique⟩,
    assocCount k m.Pairs)

/-- Modelled from the spec: `TMap::Num()`: the number of pairs. -/
def Num (m : TMap K V) : Nat :=
  m.Pairs.length

/-- Modelled from the spec: `TMap::Empty(ExpectedNumElements)`: removes all
pairs; the argument only pre-sizes the backing storage. -/
def Empty (_m : TMap K V) (_ExpectedNumElements : Int) : TMap K V :=
  empty

end TMap

/-! ## `std::any` -/

/-- Modelled from the spec: `std::any` is not part of the repository; it wraps a
copy of a value together with the identity of its type.  `El T` is the type of
values of the C++ type coded by `T`. -/
structure StdAny {Ty : Type} (El : Ty → Type) where
  type : Ty
  value : El type

/-- Modelled from the spec: `std::any_cast<T>`: the contained value when the
contained type is `T`; `none` stands for the null pointer returned by the
pointer form and for the `bad_any_cast` thrown by the reference form. -/
def any_cast {Ty : Type} [DecidableEq Ty] {El : Ty → Type} (T : Ty) (a : StdAny El) :
    Option (El T) :=
  if h : a.type = T then some (h ▸ a.value) else none

theorem any_cast_mk {Ty : Type} [DecidableEq Ty] {El : Ty → Type} (T : Ty) (x : El T) :
    any_cast T (⟨T, x⟩ : StdAny El) = some x := by
  simp [any_cast]

/-- Modelled from the spec: the erased value container of the spec is `std::any`
of the C++ standard library, which is not part of the repository.  This is
`std::any_cast<std::any>`, the cast to `std::any` itself, on an `std::any` that
holds a value of a coded type: the held type is not `std::any`, so the pointer form
returns null and the reference form throws `bad_any_cast`. -/
def any_cast_any {Ty : Type} {El : Ty → Type} (_a : StdAny El) : Option (StdAny El) :=
  none

/-! ## `FUnrealAnyValueMap<K>` -/

/-- The class `FUnrealAnyValueMap<K>`: its only member is
`TMap<K, std::any> Map`. -/
structure FUnrealAnyValueMap {KTy VTy : Type} (KEl : KTy → Type) (VEl : VTy → Type)
    [∀ K, DecidableEq (KEl K)] (K : KTy) where
  Map : TMap (KEl K) (StdAny VEl)

namespace FUnrealAnyValueMap

variable {KTy VTy : Type} {KEl : KTy → Type} {VEl : VTy → Type}
variable [∀ K, DecidableEq (KEl K)] [DecidableEq VTy] {K : KTy}

/-- `FUnrealAnyValueMap<K>::Add<V>(k, v)`. -/
def Add (s : FUnrealAnyValueMap KEl VEl K) (V : VTy) (k : KEl K) (v : VEl V) :
    FUnrealAnyValueMap KEl VEl K :=
  ⟨s.Map.Add k ⟨V, v⟩⟩

/-- `FUnrealAnyValueMap<K>::Get<V>(k, v)`: the returned pair is the `bool` result
and the content of the reference parameter `v` after the call. -/
def Get (s : FUnrealAnyValueMap KEl VEl K) (V : VTy) (k : KEl K) (v : VEl V) :
    Bool × VEl V :=
  match s.Map.Find k with
  | some Any =>
    match any_cast V Any with
    | some x => (true, x)
    | none => (false, v)
  | none => (false, v)

/-- `FUnrealAnyValueMap<K>::Find<V>(k)`: the returned pointer, as its pointee. -/
def Find (s : FUnrealAnyValueMap KEl VEl K) (V : VTy) (k : KEl K) : Option (VEl V) :=
  match s.Map.Find k with
  | some Any =>
    match any_cast V Any with
    | some x => some x
    | none => none
  | none => none

/-- `FUnrealAnyValueMap<K>::Remove(k)`. -/
def Remove (s : FUnrealAnyValueMap KEl VEl K) (k : KEl K) :
    FUnrealAnyValueMap KEl VEl K × Bool :=
  (⟨(s.Map.Remove k).1⟩, decide ((s.Map.Remove k).2 > 0))

/-- `FUnrealAnyValueMap<K>::Num()`. -/
def Num (s : FUnrealAnyValueMap KEl VEl K) : Nat :=
  s.Map.Num

/-- `FUnrealAnyValueMap<K>::Empty(ExpectedNumElements)`. -/
def Empty (s : FUnrealAnyValueMap KEl VEl K) (ExpectedNumElements : Int) :
    FUnrealAnyValueMap KEl VEl K :=
  ⟨s.Map.Empty ExpectedNumElements⟩

/-- `FUnrealAnyValueMap<K>::Add<V>(k, v)` instantiated at `V = std::any`, for an
argument `v` that holds a value of a coded type.  In `Map.Add(k, std::any(v))` the
expression `std::any(v)` is then the copy constructor of `std::any`: the stored
object is a copy of `v`, which holds what `v` holds and not an `std::any`. -/
def AddAny (s : FUnrealAnyValueMap KEl VEl K) (k : KEl K) (v : StdAny VEl) :
    FUnrealAnyValueMap KEl VEl K :=
  ⟨s.Map.Add k v⟩

/-- `FUnrealAnyValueMap<K>::Get<V>(k, v)` instantiated at `V = std::any`: the cast
is `std::any_cast<std::any>(*Any)`. -/
def GetAny (s : FUnrealAnyValueMap KEl VEl K) (k : KEl K) (v : StdAny VEl) :
    Bool × StdAny VEl :=
  match s.Map.Find k with
  | some Any =>
    match any_cast_any Any with
    | some x => (true, x)
    | none => (false, v)
  | none => (false, v)

end FUnrealAnyValueMap

/-! ## `FUnrealAnyMap` -/

/-- The class `FUnrealAnyMap`: its only member is
`TMap<const char*, std::any> Map`.  `Tag` is the type of the `const char*`
returned by `typeid(K).name()`, compared as a pointer; every `std::any` in `Map`
holds an `FUnrealAnyValueMap<K>` for some key type `K`, since `Map` is private and
only `CreateAnyValueMap_Internal` stores into it. -/
structure FUnrealAnyMap (Tag : Type) {KTy VTy : Type} (KEl : KTy → Type) (VEl : VTy → Type)
    [DecidableEq Tag] [∀ K, DecidableEq (KEl K)] where
  Map : TMap Tag (StdAny (FUnrealAnyValueMap KEl VEl))

namespace FUnrealAnyMap

variable {Tag KTy VTy : Type} {KEl : KTy → Type} {VEl : VTy → Type}
variable [DecidableEq Tag] [DecidableEq KTy] [DecidableEq VTy] [∀ K, DecidableEq (KEl K)]

/-- A freshly constructed `FUnrealAnyMap`: `Map` is default-constructed. -/
def New : FUnrealAnyMap Tag KEl VEl :=
  ⟨TMap.empty⟩

/-- `FUnrealAnyMap::GetAnyValueMap_Internal_Const<K>()`.  The parameter
`GetTypeName` is `FUnrealAnyMap::GetTypeName<K>()`, that is `typeid(K).name()`. -/
def GetAnyValueMap_Internal_Const (m : FUnrealAnyMap Tag KEl VEl) (GetTypeName : KTy → Tag)
    (K : KTy) : Option (FUnrealAnyValueMap KEl VEl K) :=
  let KeyType := GetTypeName K
  match m.Map.Find KeyType with
  | some Any =>
    match any_cast K Any with
    | some AnyValueMap => some AnyValueMap
    | none => none
  | none => none

/-- `FUnrealAnyMap::GetAnyValueMap_Internal<K>()`: the same pointer, without
`const`. -/
def GetAnyValueMap_Internal (m : FUnrealAnyMap Tag KEl VEl) (GetTypeName : KTy → Tag)
    (K : KTy) : Option (FUnrealAnyValueMap KEl VEl K) :=
  m.GetAnyValueMap_Internal_Const GetTypeName K

/-- `FUnrealAnyMap::GetAnyValueMap<K>()`, both the const and the non-const
overload; `std::decay` is the identity on key type codes. -/
def GetAnyValueMap (m : FUnrealAnyMap Tag KEl VEl) (GetTypeName : KTy → Tag)
    (K : KTy) : Option (FUnrealAnyValueMap KEl VEl K) :=
  m.GetAnyValueMap_Internal GetTypeName K

/-- The effect on the composite map of a non-const member call through the
pointer returned by `GetAnyValueMap<K>()` or `CreateAnyValueMap<K>()`: the
sub-map held in place under the type name of `K` becomes `s`. -/
def WriteAnyValueMap (m : FUnrealAnyMap Tag KEl VEl) (GetTypeName : KTy → Tag)
    (K : KTy) (s : FUnrealAnyValueMap KEl VEl K) : FUnrealAnyMap Tag KEl VEl :=
  ⟨m.Map.Assign (GetTypeName K) ⟨K, s⟩⟩

/-- `FUnrealAnyMap::RemoveSubMap<K>()`. -/
def RemoveSubMap (m : FUnrealAnyMap Tag KEl VEl) (GetTypeName : KTy → Tag)
    (K : KTy) : FUnrealAnyMap Tag KEl VEl :=
  ⟨(m.Map.Remove (GetTypeName K)).1⟩

/-- `FUnrealAnyMap::CreateAnyValueMap_Internal<K>()`: the map after the
`Emplace`, and the pointer obtained by casting the emplaced `std::any`. -/
def CreateAnyValueMap_Internal (m : FUnrealAnyMap Tag KEl VEl) (GetTypeName : KTy → Tag)
    (K : KTy) : FUnrealAnyMap Tag KEl VEl × Option (FUnrealAnyValueMap KEl VEl K) :=
  let KeyType := GetTypeName K
  let Any : StdAny (FUnrealAnyValueMap KEl VEl) := ⟨K, ⟨TMap.empty⟩⟩
  (⟨m.Map.Add KeyType Any⟩, any_cast K Any)

/-- `FUnrealAnyMap::CreateAnyValueMap<K>()`. -/
def CreateAnyValueMap (m : FUnrealAnyMap Tag KEl VEl) (GetTypeName : KTy → Tag)
    (K : KTy) : FUnrealAnyMap Tag KEl VEl × Option (FUnrealAnyValueMap KEl VEl K) :=
  m.CreateAnyValueMap_Internal GetTypeName K

/-- `FUnrealAnyMap::Add_Internal<K, V>(k, v)`; `none` is the dereference of a null
`AnyValueMap` in the last statement. -/
def Add_Internal (m : FUnrealAnyMap Tag KEl VEl) (GetTypeName : KTy → Tag)
    (K : KTy) (V : VTy) (k : KEl K) (v : VEl V) : Option (FUnrealAnyMap Tag KEl VEl) :=
  match m.GetAnyValueMap GetTypeName K with
  | some AnyValueMap => some (m.WriteAnyValueMap GetTypeName K (AnyValueMap.Add V k v))
  | none =>
    match m.CreateAnyValueMap GetTypeName K with
    | (m1, some AnyValueMap) => some (m1.WriteAnyValueMap GetTypeName K (AnyValueMap.Add V k v))
    | (_, none) => none

/-- `FUnrealAnyMap::Get_Internal<K, V>(k, v)`: the `bool` result and the content
of `v` after the call. -/
def Get_Internal (m : FUnrealAnyMap Tag KEl VEl) (GetTypeName : KTy → Tag)
    (K : KTy) (V : VTy) (k : KEl K) (v : VEl V) : Bool × VEl V :=
  match m.GetAnyValueMap GetTypeName K with
  | some AnyValueMap => AnyValueMap.Get V k v
  | none => (false, v)

/-- `FUnrealAnyMap::Find_Internal<V, K>(k)`: the returned pointer, as its
pointee. -/
def Find_Internal (m : FUnrealAnyMap Tag KEl VEl) (GetTypeName : KTy → Tag)
    (V : VTy) (K : KTy) (k : KEl K) : Option (VEl V) :=
  match m.GetAnyValueMap GetTypeName K with
  | some AnyValueMap => AnyValueMap.Find V k
  | none => none

/-- `FUnrealAnyMap::Remove_Internal<K>(k)`. -/
def Remove_Internal (m : FUnrealAnyMap Tag KEl VEl) (GetTypeName : KTy → Tag)
    (K : KTy) (k : KEl K) : FUnrealAnyMap Tag KEl VEl × Bool :=
  match m.GetAnyValueMap GetTypeName K with
  | some AnyValueMap =>
    let m1 := m.WriteAnyValueMap GetTypeName K (AnyValueMap.Remove k).1
    if (AnyValueMap.Remove k).2 then
      if (AnyValueMap.Remove k).1.Num = 0 then (m1.RemoveSubMap GetTypeName K, true)
      else (m1, true)
    else (m1, false)
  | none => (m, false)

/-- `FUnrealAnyMap::Get<K, V>(k, v)`. -/
def Get (m : FUnrealAnyMap Tag KEl VEl) (GetTypeName : KTy → Tag)
    (K : KTy) (V : VTy) (k : KEl K) (v : VEl V) : Bool × VEl V :=
  m.Get_Internal GetTypeName K V k v

/-- `FUnrealAnyMap::Find<V, K>(k)`. -/
def Find (m : FUnrealAnyMap Tag KEl VEl) (GetTypeName : KTy → Tag)
    (V : VTy) (K : KTy) (k : KEl K) : Option (VEl V) :=
  m.Find_Internal GetTypeName V K k

/-- `FUnrealAnyMap::Remove<K>(k)`. -/
def Remove (m : FUnrealAnyMap Tag KEl VEl) (GetTypeName : KTy → Tag)
    (K : KTy) (k : KEl K) : FUnrealAnyMap Tag KEl VEl × Bool :=
  m.Remove_Internal GetTypeName K k

/-- `FUnrealAnyMap::Num<K>()`. -/
def Num (m : FUnrealAnyMap Tag KEl VEl) (GetTypeName : KTy → Tag) (K : KTy) : Nat :=
  match m.GetAnyValueMap GetTypeName K with
  | some AnyValueMap => AnyValueMap.Num
  | none => 0

/-- `FUnrealAnyMap::NumKeyTypes()`. -/
def NumKeyTypes (m : FUnrealAnyMap Tag KEl VEl) : Nat :=
  m.Map.Num

/-- `FUnrealAnyMap::Empty<K>(ExpectedNumElements)`, the overload that empties the
sub-map with key type `K`. -/
def EmptySubMap (m : FUnrealAnyMap Tag KEl VEl) (GetTypeName : KTy → Tag)
    (K : KTy) (ExpectedNumElements : Int) : FUnrealAnyMap Tag KEl VEl × Bool :=
  match m.GetAnyValueMap GetTypeName K with
  | some AnyValueMap =>
    if ExpectedNumElements ≤ 0 then (m.RemoveSubMap GetTypeName K, true)
    else (m.WriteAnyValueMap GetTypeName K (AnyValueMap.Empty ExpectedNumElements), true)
  | none => (m, false)

/-- `FUnrealAnyMap::Empty(ExpectedNumElements)`, the overload that empties the
entire map. -/
def Empty (m : FUnrealAnyMap Tag KEl VEl) (ExpectedNumElements : Int) :
    FUnrealAnyMap Tag KEl VEl :=
  ⟨m.Map.Empty ExpectedNumElements⟩

theorem Add_Internal_isSome (m : FUnrealAnyMap Tag KEl VEl) (GetTypeName : KTy → Tag)
    (K : KTy) (V : VTy) (k : KEl K) (v : VEl V) :
    (m.Add_Internal GetTypeName K V k v).isSome = true := by
  unfold Add_Internal
  split
  · rfl
  · simp [CreateAnyValueMap, CreateAnyValueMap_Internal, any_cast_mk]

/-- `FUnrealAnyMap::Add<K, V>(k, v)`: the map after the call of `Add_Internal`,
which never dereferences a null pointer (`Add_Internal_isSome`). -/
def Add (m : FUnrealAnyMap Tag KEl VEl) (GetTypeName : KTy → Tag)
    (K : KTy) (V : VTy) (k : KEl K) (v : VEl V) : FUnrealAnyMap Tag KEl VEl :=
  (m.Add_Internal GetTypeName K V k v).get (Add_Internal_isSome m GetTypeName K V k v)

/-- `FUnrealAnyMap::Find<V>(const char* k)`, the overload for string literal
keys. -/
def FindLiteral (m : FUnrealAnyMap Tag KEl VEl) (GetTypeName : KTy → Tag)
    (CharPtr : KTy) (V : VTy) (k : KEl CharPtr) : Option (VEl V) :=
  m.Find_Internal GetTypeName V CharPtr k

/-- `FUnrealAnyMap::Remove(const char* k)`, the overload for string literal
keys. -/
def RemoveLiteral (m : FUnrealAnyMap Tag KEl VEl) (GetTypeName : KTy → Tag)
    (CharPtr : KTy) (k : KEl CharPtr) : FUnrealAnyMap Tag KEl VEl × Bool :=
  m.Remove_Internal GetTypeName CharPtr k

/-- `FUnrealAnyMap::Add_Internal<K, V>(k, v)` instantiated at `V = std::any`, for an
argument `v` that holds a value of a coded type; `none` is the dereference of a
null `AnyValueMap` in the last statement. -/
def Add_InternalAny (m : FUnrealAnyMap Tag KEl VEl) (GetTypeName : KTy → Tag)
    (K : KTy) (k : KEl K) (v : StdAny VEl) : Option (FUnrealAnyMap Tag KEl VEl) :=
  match m.GetAnyValueMap GetTypeName K with
  | some AnyValueMap => some (m.WriteAnyValueMap GetTypeName K (AnyValueMap.AddAny k v))
  | none =>
    match m.CreateAnyValueMap GetTypeName K with
    | (m1, some AnyValueMap) => some (m1.WriteAnyValueMap GetTypeName K (AnyValueMap.AddAny k v))
    | (_, none) => none

theorem Add_InternalAny_isSome (m : FUnrealAnyMap Tag KEl VEl) (GetTypeName : KTy → Tag)
    (K : KTy) (k : KEl K) (v : StdAny VEl) :
    (m.Add_InternalAny GetTypeName K k v).isSome = true := by
  unfold Add_InternalAny
  split
  · rfl
  · simp [CreateAnyValueMap, CreateAnyValueMap_Internal, any_cast_mk]

/-- `FUnrealAnyMap::Add<K, V>(k, v)` instantiated at `V = std::any`: the map after
the call of `Add_Internal`, which never dereferences a null pointer
(`Add_InternalAny_isSome`). -/
def AddAny (m : FUnrealAnyMap Tag KEl VEl) (GetTypeName : KTy → Tag)
    (K : KTy) (k : KEl K) (v : StdAny VEl) : FUnrealAnyMap Tag KEl VEl :=
  (m.Add_InternalAny GetTypeName K k v).get (Add_InternalAny_isSome m GetTypeName K k v)

/-- `FUnrealAnyMap::Get_Internal<K, V>(k, v)` instantiated at `V = std::any`: the
`bool` result and the content of `v` after the call. -/
def Get_InternalAny (m : FUnrealAnyMap Tag KEl VEl) (GetTypeName : KTy → Tag)
    (K : KTy) (k : KEl K) (v : StdAny VEl) : Bool × StdAny VEl :=
  match m.GetAnyValueMap GetTypeName K with
  | some AnyValueMap => AnyValueMap.GetAny k v
  | none => (false, v)

/-- `FUnrealAnyMap::Get<K, V>(k, v)` instantiated at `V = std::any`. -/
def GetAny (m : FUnrealAnyMap Tag KEl VEl) (GetTypeName : KTy → Tag)
    (K : KTy) (k : KEl K) (v : StdAny VEl) : Bool × StdAny VEl :=
  m.Get_InternalAny GetTypeName K k v

end FUnrealAnyMap

/-! ## Sequences of calls -/

/-- A call of one of the public member functions of `FUnrealAnyMap` that modify
the map: `Add<K,V>(k, v)`, `Remove<K>(k)`, `Empty(ExpectedNumElements)` and
`Empty<K>(ExpectedNumElements)`, with its arguments. -/
inductive Call {KTy VTy : Type} (KEl : KTy → Type) (VEl : VTy → Type) where
  | Add (K : KTy) (V : VTy) (k : KEl K) (v : VEl V)
  | Remove (K : KTy) (k : KEl K)
  | Empty (ExpectedNumElements : Int)
  | EmptySubMap (K : KTy) (ExpectedNumElements : Int)

namespace Call

variable {Tag KTy VTy : Type} {KEl : KTy → Type} {VEl : VTy → Type}
variable [DecidableEq Tag] [DecidableEq KTy] [DecidableEq VTy] [∀ K, DecidableEq (KEl K)]

/-- The map after the call. -/
def apply (GetTypeName : KTy → Tag) (m : FUnrealAnyMap Tag KEl VEl) :
    Call KEl VEl → FUnrealAnyMap Tag KEl VEl
  | .Add K V k v => m.Add GetTypeName K V k v
  | .Remove K k => (m.Remove GetTypeName K k).1
  | .Empty ExpectedNumElements => m.Empty ExpectedNumElements
  | .EmptySubMap K ExpectedNumElements => (m.EmptySubMap GetTypeName K ExpectedNumElements).1

/-- Whether the call is `Empty<K>` with a positive hint, the one call that keeps
an emptied store in the map. -/
def positiveHint : Call KEl VEl → Bool
  | .EmptySubMap _ ExpectedNumElements => decide (0 < ExpectedNumElements)
  | _ => false

/-- The map after a sequence of calls, in order, on the map `m`. -/
def runFrom (GetTypeName : KTy → Tag) (m : FUnrealAnyMap Tag KEl VEl)
    (calls : List (Call KEl VEl)) : FUnrealAnyMap Tag KEl VEl :=
  calls.foldl (apply GetTypeName) m

/-- The map after a sequence of calls, in order, on a freshly constructed
`FUnrealAnyMap`. -/
def run (GetTypeName : KTy → Tag) (calls : List (Call KEl VEl)) :
    FUnrealAnyMap Tag KEl VEl :=
  runFrom GetTypeName FUnrealAnyMap.New calls

end Call

/-! ## Facts about association lists -/

section Assoc

variable {K V : Type} [DecidableEq K]

theorem assocFind_assocSet (k a : K) (v : V) (l : List (K × V)) :
    assocFind a (assocSet k v l) =
      if a = k then (assocFind k l).map (fun _ => v) else assocFind a l := by
  induction l with
  | nil => simp [assocSet, assocFind]
  | cons p l ih =>
    by_cases hp : p.1 = k
    · by_cases ha : a = k
      · subst ha
        simp [assocSet, assocFind, hp]
      · have hka : ¬ k = a := fun e => ha e.symm
        simp [assocSet, assocFind, hp, ha, hka]
    · by_cases ha : a = k
      · subst ha
        simp [assocSet, assocFind, hp, ih]
      · simp [assocSet, assocFind, hp, ha, ih]

theorem assocFind_assocErase (k a : K) (l : List (K × V)) :
    assocFind a (assocErase k l) = if a = k then none else assocFind a l := by
  induction l with
  | nil => simp [assocErase, assocFind]
  | cons p l ih =>
    by_cases hp : p.1 = k
    · by_cases ha : a = k
      · subst ha
        simpa [assocErase, hp] using ih
      · have hka : ¬ k = a := fun e => ha e.symm
        simp [assocErase, assocFind, hp, ih, ha, hka]
    · by_cases ha : a = k
      · subst ha
        simp [assocErase, assocFind, hp, ih]
      · simp [assocErase, assocFind, hp, ih, ha]

theorem length_assocSet (k : K) (v : V) (l : List (K × V)) :
    (assocSet k v l).length = l.length := by
  have h := congrArg List.length (assocKeys_assocSet k v l)
  simpa [assocKeys] using h

theorem length_assocErase (k : K) (l : List (K × V)) :
    (assocErase k l).length + assocCount k l = l.length := by
  induction l with
  | nil => simp [assocErase, assocCount]
  | cons p l ih =>
    by_cases hp : p.1 = k
    · simp [assocErase, assocCount, hp]
      omega
    · simp [assocErase, assocCount, hp]
      omega

theorem assocCount_eq_zero (k : K) (l : List (K × V)) (h : k ∉ assocKeys l) :
    assocCount k l = 0 := by
  induction l with
  | nil => rfl
  | cons p l ih =>
    have h2 : ¬ k = p.1 ∧ k ∉ assocKeys l := by
      simpa [assocKeys] using h
    have hp : ¬ p.1 = k := fun e => h2.1 e.symm
    simp [assocCount, hp, ih h2.2]

theorem assocCount_of_nodup (k : K) (l : List (K × V)) (h : (assocKeys l).Nodup) :
    assocCount k l = if (assocFind k l).isSome then 1 else 0 := by
  induction l with
  | nil => simp [assocCount, assocFind]
  | cons p l ih =>
    have h2 : p.1 ∉ assocKeys l ∧ (assocKeys l).Nodup := by
      simpa [assocKeys] using h
    by_cases hp : p.1 = k
    · have hk : k ∉ assocKeys l := hp ▸ h2.1
      simp [assocCount, assocFind, hp, assocCount_eq_zero k l hk]
    · simp [assocCount, assocFind, hp, ih h2.2]

theorem assocErase_of_not_mem (k : K) (l : List (K × V)) (h : k ∉ assocKeys l) :
    assocErase k l = l := by
  induction l with
  | nil => rfl
  | cons p l ih =>
    have h2 : ¬ k = p.1 ∧ k ∉ assocKeys l := by
      simpa [assocKeys] using h
    have hp : ¬ p.1 = k := fun e => h2.1 e.symm
    simp [assocErase, hp, ih h2.2]

theorem assocFind_eq_some_iff (k : K) (v : V) (l : List (K × V)) (h : (assocKeys l).Nodup) :
    assocFind k l = some v ↔ (k, v) ∈ l := by
  induction l with
  | nil => simp [assocFind]
  | cons p l ih =>
    have h2 : p.1 ∉ assocKeys l ∧ (assocKeys l).Nodup := by
      simpa [assocKeys] using h
    obtain ⟨a, b⟩ := p
    by_cases hp : a = k
    · subst hp
      have hnot : (a, v) ∉ l := fun hm =>
        h2.1 (List.mem_map.2 ⟨(a, v), hm, rfl⟩)
      simp only [assocFind, if_true, List.mem_cons, hnot, or_false]
      constructor
      · intro e
        cases e
        rfl
      · intro e
        cases e
        rfl
    · have hne : (k, v) ≠ (a, b) := fun e => hp (congrArg Prod.fst e).symm
      simp only [assocFind, hp, if_false, List.mem_cons, hne, false_or]
      exact ih h2.2

theorem assocSet_eq_self (k : K) (v : V) (l : List (K × V)) (h : assocFind k l = some v) :
    assocSet k v l = l := by
  induction l with
  | nil => rfl
  | cons p l ih =>
    by_cases hp : p.1 = k
    · simp only [assocFind, hp, if_true, Option.some.injEq] at h
      simp only [assocSet, hp, if_true]
      rw [← h, ← hp]
    · simp only [assocFind, hp, if_false] at h
      simp only [assocSet, hp, if_false]
      rw [ih h]

end Assoc

/-! ## Facts about `TMap` -/

namespace TMap

variable {K V : Type} [DecidableEq K]

theorem Find_empty (k : K) : (empty : TMap K V).Find k = none := rfl

theorem Num_empty : (empty : TMap K V).Num = 0 := rfl

theorem Find_Empty (m : TMap K V) (n : Int) (k : K) : (m.Empty n).Find k = none := rfl

theorem Num_Empty (m : TMap K V) (n : Int) : (m.Empty n).Num = 0 := rfl

theorem Find_Assign (m : TMap K V) (k a : K) (v : V) :
    (m.Assign k v).Find a = if a = k then (m.Find k).map (fun _ => v) else m.Find a :=
  assocFind_assocSet k a v m.Pairs

theorem Num_Assign (m : TMap K V) (k : K) (v : V) : (m.Assign k v).Num = m.Num :=
  length_assocSet k v m.Pairs

theorem Find_Add (m : TMap K V) (k a : K) (v : V) :
    (m.Add k v).Find a = if a = k then some v else m.Find a := by
  unfold Add
  split
  · rename_i x hx
    rw [Find_Assign]
    by_cases ha : a = k
    · simp [ha, Find, hx]
    · simp [ha]
  · by_cases ha : a = k
    · subst ha
      simp [Find, assocFind]
    · have hka : ¬ k = a := fun e => ha e.symm
      simp [Find, assocFind, ha, hka]

theorem Num_Add (m : TMap K V) (k : K) (v : V) :
    (m.Add k v).Num = if (m.Find k).isSome then m.Num else m.Num + 1 := by
  unfold Add
  split
  · rename_i x hx
    rw [Num_Assign]
    simp [Find, hx]
  · rename_i hx
    simp [Find, hx, Num]

theorem Find_Remove (m : TMap K V) (k a : K) :
    (m.Remove k).1.Find a = if a = k then none else m.Find a :=
  assocFind_assocErase k a m.Pairs

theorem Remove_count (m : TMap K V) (k : K) :
    (m.Remove k).2 = if (m.Find k).isSome then 1 else 0 :=
  assocCount_of_nodup k m.Pairs m.unique

theorem Num_Remove (m : TMap K V) (k : K) :
    (m.Remove k).1.Num + (m.Remove k).2 = m.Num :=
  length_assocErase k m.Pairs

theorem Num_pos_of_Find (m : TMap K V) (k : K) (v : V) (h : m.Find k = some v) :
    0 < m.Num := by
  obtain ⟨l, hl⟩ := m
  cases l with
  | nil => simp [Find, assocFind] at h
  | cons p l => simp [Num]

theorem Find_of_Num_eq_zero (m : TMap K V) (k : K) (h : m.Num = 0) : m.Find k = none := by
  cases hf : m.Find k with
  | none => rfl
  | some v =>
    have := m.Num_pos_of_Find k v hf
    omega

theorem Remove_eq_self (m : TMap K V) (k : K) (h : m.Find k = none) : (m.Remove k).1 = m := by
  obtain ⟨l, hl⟩ := m
  have hk : k ∉ assocKeys l := (assocFind_eq_none_iff k l).1 h
  simp [Remove, assocErase_of_not_mem k l hk]

theorem Find_eq_some_iff (m : TMap K V) (k : K) (v : V) :
    m.Find k = some v ↔ (k, v) ∈ m.Pairs :=
  assocFind_eq_some_iff k v m.Pairs m.unique

theorem Assign_eq_self (m : TMap K V) (k : K) (v : V) (h : m.Find k = some v) :
    m.Assign k v = m := by
  obtain ⟨l, hl⟩ := m
  simp [Assign, assocSet_eq_self k v l h]

end TMap

/-! ## Facts about `std::any` -/

theorem any_cast_eq_some_iff {Ty : Type} [DecidableEq Ty] {El : Ty → Type} (T : Ty)
    (a : StdAny El) (x : El T) : any_cast T a = some x ↔ a = ⟨T, x⟩ := by
  obtain ⟨t, y⟩ := a
  constructor
  · intro h
    by_cases ht : t = T
    · subst ht
      rw [any_cast_mk] at h
      cases h
      rfl
    · simp [any_cast, ht] at h
  · intro h
    cases h
    exact any_cast_mk T x

namespace FUnrealAnyValueMap

variable {KTy VTy : Type} {KEl : KTy → Type} {VEl : VTy → Type}
variable [∀ K, DecidableEq (KEl K)] [DecidableEq VTy] {K : KTy}

theorem Store_Find_Add (s : FUnrealAnyValueMap KEl VEl K) (V : VTy) (k a : KEl K) (v : VEl V) :
    (s.Add V k v).Map.Find a = if a = k then some ⟨V, v⟩ else s.Map.Find a :=
  TMap.Find_Add s.Map k a ⟨V, v⟩

theorem Store_Num_Add (s : FUnrealAnyValueMap KEl VEl K) (V : VTy) (k : KEl K) (v : VEl V) :
    (s.Add V k v).Num = if (s.Map.Find k).isSome then s.Num else s.Num + 1 :=
  TMap.Num_Add s.Map k ⟨V, v⟩

theorem Get_of_Find_none (s : FUnrealAnyValueMap KEl VEl K) (V : VTy) (k : KEl K)
    (out : VEl V) (h : s.Map.Find k = none) : s.Get V k out = (false, out) := by
  simp [Get, h]

theorem Find_eq_none_iff (s : FUnrealAnyValueMap KEl VEl K) (V : VTy) (k : KEl K)
    (out : VEl V) : s.Find V k = none ↔ (s.Get V k out).1 = false := by
  cases hf : s.Map.Find k with
  | none => simp [Get, Find, hf]
  | some a =>
    cases hc : any_cast V a with
    | none => simp [Get, Find, hf, hc]
    | some x => simp [Get, Find, hf, hc]

theorem Remove_snd (s : FUnrealAnyValueMap KEl VEl K) (k : KEl K) :
    (s.Remove k).2 = (s.Map.Find k).isSome := by
  simp only [Remove, TMap.Remove_count]
  cases s.Map.Find k <;> simp

theorem Store_Num_Remove (s : FUnrealAnyValueMap KEl VEl K) (k : KEl K) :
    (s.Remove k).1.Num + (if (s.Map.Find k).isSome then 1 else 0) = s.Num := by
  have h := TMap.Num_Remove s.Map k
  rw [TMap.Remove_count] at h
  exact h

theorem Remove_fst_of_Find_none (s : FUnrealAnyValueMap KEl VEl K) (k : KEl K)
    (h : s.Map.Find k = none) : (s.Remove k).1 = s := by
  obtain ⟨M⟩ := s
  simp only [Remove]
  rw [TMap.Remove_eq_self M k h]

end FUnrealAnyValueMap

/-! ## Facts about `FUnrealAnyMap` -/

namespace FUnrealAnyMap

variable {Tag KTy VTy : Type} {KEl : KTy → Type} {VEl : VTy → Type}
variable [DecidableEq Tag] [DecidableEq KTy] [DecidableEq VTy] [∀ K, DecidableEq (KEl K)]

theorem GetAnyValueMap_eq (m : FUnrealAnyMap Tag KEl VEl) (GetTypeName : KTy → Tag) (K : KTy) :
    m.GetAnyValueMap GetTypeName K = (m.Map.Find (GetTypeName K)).bind (any_cast K) := by
  simp only [GetAnyValueMap, GetAnyValueMap_Internal, GetAnyValueMap_Internal_Const]
  cases m.Map.Find (GetTypeName K) with
  | none => rfl
  | some a => cases h : any_cast K a <;> simp [h]

theorem GetAnyValueMap_eq_some_iff (m : FUnrealAnyMap Tag KEl VEl) (GetTypeName : KTy → Tag)
    (K : KTy) (s : FUnrealAnyValueMap KEl VEl K) :
    m.GetAnyValueMap GetTypeName K = some s ↔ m.Map.Find (GetTypeName K) = some ⟨K, s⟩ := by
  rw [GetAnyValueMap_eq]
  cases m.Map.Find (GetTypeName K) with
  | none => simp
  | some a => simp [any_cast_eq_some_iff]

theorem GetAnyValueMap_congr (m n : FUnrealAnyMap Tag KEl VEl) (GetTypeName : KTy → Tag)
    (K : KTy) (h : n.Map.Find (GetTypeName K) = m.Map.Find (GetTypeName K)) :
    n.GetAnyValueMap GetTypeName K = m.GetAnyValueMap GetTypeName K := by
  rw [GetAnyValueMap_eq, GetAnyValueMap_eq, h]

theorem GetAnyValueMap_of_Find_none (m : FUnrealAnyMap Tag KEl VEl) (GetTypeName : KTy → Tag)
    (K : KTy) (h : m.Map.Find (GetTypeName K) = none) :
    m.GetAnyValueMap GetTypeName K = none := by
  rw [GetAnyValueMap_eq, h]
  rfl

theorem Map_Find_WriteAnyValueMap (m : FUnrealAnyMap Tag KEl VEl) (GetTypeName : KTy → Tag)
    (K : KTy) (s : FUnrealAnyValueMap KEl VEl K) (t : Tag) :
    (m.WriteAnyValueMap GetTypeName K s).Map.Find t =
      if t = GetTypeName K then (m.Map.Find (GetTypeName K)).map (fun _ => ⟨K, s⟩)
      else m.Map.Find t :=
  TMap.Find_Assign m.Map (GetTypeName K) t ⟨K, s⟩

theorem NumKeyTypes_WriteAnyValueMap (m : FUnrealAnyMap Tag KEl VEl) (GetTypeName : KTy → Tag)
    (K : KTy) (s : FUnrealAnyValueMap KEl VEl K) :
    (m.WriteAnyValueMap GetTypeName K s).NumKeyTypes = m.NumKeyTypes :=
  TMap.Num_Assign m.Map (GetTypeName K) ⟨K, s⟩

theorem Map_Find_RemoveSubMap (m : FUnrealAnyMap Tag KEl VEl) (GetTypeName : KTy → Tag)
    (K : KTy) (t : Tag) :
    (m.RemoveSubMap GetTypeName K).Map.Find t =
      if t = GetTypeName K then none else m.Map.Find t :=
  TMap.Find_Remove m.Map (GetTypeName K) t

theorem NumKeyTypes_RemoveSubMap (m : FUnrealAnyMap Tag KEl VEl) (GetTypeName : KTy → Tag)
    (K : KTy) :
    (m.RemoveSubMap GetTypeName K).NumKeyTypes +
      (if (m.Map.Find (GetTypeName K)).isSome then 1 else 0) = m.NumKeyTypes := by
  have h := TMap.Num_Remove m.Map (GetTypeName K)
  rw [TMap.Remove_count] at h
  exact h

theorem Add_eq_of_some (m : FUnrealAnyMap Tag KEl VEl) (GetTypeName : KTy → Tag)
    (K : KTy) (V : VTy) (k : KEl K) (v : VEl V) (s : FUnrealAnyValueMap KEl VEl K)
    (h : m.GetAnyValueMap GetTypeName K = some s) :
    m.Add GetTypeName K V k v = m.WriteAnyValueMap GetTypeName K (s.Add V k v) := by
  apply Option.some_injective
  rw [Add, Option.some_get]
  simp [Add_Internal, h]

theorem Add_eq_of_none (m : FUnrealAnyMap Tag KEl VEl) (GetTypeName : KTy → Tag)
    (K : KTy) (V : VTy) (k : KEl K) (v : VEl V)
    (h : m.GetAnyValueMap GetTypeName K = none) :
    m.Add GetTypeName K V k v =
      (⟨m.Map.Add (GetTypeName K) ⟨K, ⟨TMap.empty⟩⟩⟩ : FUnrealAnyMap Tag KEl VEl).WriteAnyValueMap
        GetTypeName K ((⟨TMap.empty⟩ : FUnrealAnyValueMap KEl VEl K).Add V k v) := by
  apply Option.some_injective
  rw [Add, Option.some_get]
  simp [Add_Internal, h, CreateAnyValueMap, CreateAnyValueMap_Internal, any_cast_mk]

theorem Map_Find_Add (m : FUnrealAnyMap Tag KEl VEl) (GetTypeName : KTy → Tag)
    (K : KTy) (V : VTy) (k : KEl K) (v : VEl V) (t : Tag) :
    (m.Add GetTypeName K V k v).Map.Find t =
      if t = GetTypeName K then
        some ⟨K, ((m.GetAnyValueMap GetTypeName K).getD ⟨TMap.empty⟩).Add V k v⟩
      else m.Map.Find t := by
  cases h : m.GetAnyValueMap GetTypeName K with
  | some s =>
    rw [Add_eq_of_some m GetTypeName K V k v s h, Map_Find_WriteAnyValueMap]
    rw [(GetAnyValueMap_eq_some_iff m GetTypeName K s).1 h]
    simp
  | none =>
    rw [Add_eq_of_none m GetTypeName K V k v h, Map_Find_WriteAnyValueMap]
    simp only [TMap.Find_Add]
    by_cases ht : t = GetTypeName K
    · simp [ht]
    · simp [ht]

theorem GetAnyValueMap_Add_same (m : FUnrealAnyMap Tag KEl VEl) (GetTypeName : KTy → Tag)
    (K : KTy) (V : VTy) (k : KEl K) (v : VEl V) :
    (m.Add GetTypeName K V k v).GetAnyValueMap GetTypeName K =
      some (((m.GetAnyValueMap GetTypeName K).getD ⟨TMap.empty⟩).Add V k v) := by
  rw [GetAnyValueMap_eq_some_iff, Map_Find_Add]
  simp

theorem GetAnyValueMap_Add_other (m : FUnrealAnyMap Tag KEl VEl) (GetTypeName : KTy → Tag)
    (K J : KTy) (V : VTy) (k : KEl K) (v : VEl V) (h : GetTypeName J ≠ GetTypeName K) :
    (m.Add GetTypeName K V k v).GetAnyValueMap GetTypeName J =
      m.GetAnyValueMap GetTypeName J := by
  apply GetAnyValueMap_congr
  rw [Map_Find_Add]
  simp [h]

theorem NumKeyTypes_Add (m : FUnrealAnyMap Tag KEl VEl) (GetTypeName : KTy → Tag)
    (K : KTy) (V : VTy) (k : KEl K) (v : VEl V) :
    (m.Add GetTypeName K V k v).NumKeyTypes =
      if (m.Map.Find (GetTypeName K)).isSome then m.NumKeyTypes else m.NumKeyTypes + 1 := by
  cases h : m.GetAnyValueMap GetTypeName K with
  | some s =>
    rw [Add_eq_of_some m GetTypeName K V k v s h, NumKeyTypes_WriteAnyValueMap]
    rw [(GetAnyValueMap_eq_some_iff m GetTypeName K s).1 h]
    simp
  | none =>
    rw [Add_eq_of_none m GetTypeName K V k v h, NumKeyTypes_WriteAnyValueMap]
    exact TMap.Num_Add m.Map (GetTypeName K) _

theorem Remove_eq_of_none (m : FUnrealAnyMap Tag KEl VEl) (GetTypeName : KTy → Tag)
    (K : KTy) (k : KEl K) (h : m.GetAnyValueMap GetTypeName K = none) :
    m.Remove GetTypeName K k = (m, false) := by
  simp [Remove, Remove_Internal, h]

theorem Remove_eq_of_absent (m : FUnrealAnyMap Tag KEl VEl) (GetTypeName : KTy → Tag)
    (K : KTy) (k : KEl K) (s : FUnrealAnyValueMap KEl VEl K)
    (h : m.GetAnyValueMap GetTypeName K = some s) (hf : s.Map.Find k = none) :
    m.Remove GetTypeName K k = (m.WriteAnyValueMap GetTypeName K (s.Remove k).1, false) := by
  simp [Remove, Remove_Internal, h, FUnrealAnyValueMap.Remove_snd, hf]

theorem Remove_eq_of_last (m : FUnrealAnyMap Tag KEl VEl) (GetTypeName : KTy → Tag)
    (K : KTy) (k : KEl K) (s : FUnrealAnyValueMap KEl VEl K)
    (h : m.GetAnyValueMap GetTypeName K = some s) (hf : (s.Map.Find k).isSome = true)
    (hn : (s.Remove k).1.Num = 0) :
    m.Remove GetTypeName K k =
      ((m.WriteAnyValueMap GetTypeName K (s.Remove k).1).RemoveSubMap GetTypeName K, true) := by
  simp [Remove, Remove_Internal, h, FUnrealAnyValueMap.Remove_snd, hf, hn]

theorem Remove_eq_of_more (m : FUnrealAnyMap Tag KEl VEl) (GetTypeName : KTy → Tag)
    (K : KTy) (k : KEl K) (s : FUnrealAnyValueMap KEl VEl K)
    (h : m.GetAnyValueMap GetTypeName K = some s) (hf : (s.Map.Find k).isSome = true)
    (hn : (s.Remove k).1.Num ≠ 0) :
    m.Remove GetTypeName K k = (m.WriteAnyValueMap GetTypeName K (s.Remove k).1, true) := by
  simp [Remove, Remove_Internal, h, FUnrealAnyValueMap.Remove_snd, hf, hn]

theorem Map_Find_Remove_other (m : FUnrealAnyMap Tag KEl VEl) (GetTypeName : KTy → Tag)
    (K : KTy) (k : KEl K) (t : Tag) (ht : t ≠ GetTypeName K) :
    (m.Remove GetTypeName K k).1.Map.Find t = m.Map.Find t := by
  cases h : m.GetAnyValueMap GetTypeName K with
  | none => rw [Remove_eq_of_none m GetTypeName K k h]
  | some s =>
    cases hf : (s.Map.Find k).isSome with
    | false =>
      have hf2 : s.Map.Find k = none := by simpa using hf
      rw [Remove_eq_of_absent m GetTypeName K k s h hf2]
      simp [Map_Find_WriteAnyValueMap, ht]
    | true =>
      by_cases hn : (s.Remove k).1.Num = 0
      · rw [Remove_eq_of_last m GetTypeName K k s h hf hn]
        simp [Map_Find_RemoveSubMap, Map_Find_WriteAnyValueMap, ht]
      · rw [Remove_eq_of_more m GetTypeName K k s h hf hn]
        simp [Map_Find_WriteAnyValueMap, ht]

theorem EmptySubMap_eq_of_none (m : FUnrealAnyMap Tag KEl VEl) (GetTypeName : KTy → Tag)
    (K : KTy) (n : Int) (h : m.GetAnyValueMap GetTypeName K = none) :
    m.EmptySubMap GetTypeName K n = (m, false) := by
  simp [EmptySubMap, h]

theorem EmptySubMap_eq_of_nonpos (m : FUnrealAnyMap Tag KEl VEl) (GetTypeName : KTy → Tag)
    (K : KTy) (n : Int) (s : FUnrealAnyValueMap KEl VEl K)
    (h : m.GetAnyValueMap GetTypeName K = some s) (hn : n ≤ 0) :
    m.EmptySubMap GetTypeName K n = (m.RemoveSubMap GetTypeName K, true) := by
  simp [EmptySubMap, h, hn]

theorem EmptySubMap_eq_of_pos (m : FUnrealAnyMap Tag KEl VEl) (GetTypeName : KTy → Tag)
    (K : KTy) (n : Int) (s : FUnrealAnyValueMap KEl VEl K)
    (h : m.GetAnyValueMap GetTypeName K = some s) (hn : 0 < n) :
    m.EmptySubMap GetTypeName K n =
      (m.WriteAnyValueMap GetTypeName K ⟨TMap.empty⟩, true) := by
  have hn2 : ¬ n ≤ 0 := by omega
  simp [EmptySubMap, h, hn2, FUnrealAnyValueMap.Empty, TMap.Empty]

theorem Map_Find_EmptySubMap_other (m : FUnrealAnyMap Tag KEl VEl) (GetTypeName : KTy → Tag)
    (K : KTy) (n : Int) (t : Tag) (ht : t ≠ GetTypeName K) :
    (m.EmptySubMap GetTypeName K n).1.Map.Find t = m.Map.Find t := by
  cases h : m.GetAnyValueMap GetTypeName K with
  | none => rw [EmptySubMap_eq_of_none m GetTypeName K n h]
  | some s =>
    by_cases hn : n ≤ 0
    · rw [EmptySubMap_eq_of_nonpos m GetTypeName K n s h hn]
      simp [Map_Find_RemoveSubMap, ht]
    · rw [EmptySubMap_eq_of_pos m GetTypeName K n s h (by omega)]
      simp [Map_Find_WriteAnyValueMap, ht]

theorem Num_congr (m n : FUnrealAnyMap Tag KEl VEl) (GetTypeName : KTy → Tag) (J : KTy)
    (h : n.GetAnyValueMap GetTypeName J = m.GetAnyValueMap GetTypeName J) :
    n.Num GetTypeName J = m.Num GetTypeName J := by
  simp [Num, h]

theorem Get_congr (m n : FUnrealAnyMap Tag KEl VEl) (GetTypeName : KTy → Tag) (J : KTy)
    (W : VTy) (j : KEl J) (out : VEl W)
    (h : n.GetAnyValueMap GetTypeName J = m.GetAnyValueMap GetTypeName J) :
    n.Get GetTypeName J W j out = m.Get GetTypeName J W j out := by
  simp [Get, Get_Internal, h]

theorem Find_congr (m n : FUnrealAnyMap Tag KEl VEl) (GetTypeName : KTy → Tag) (J : KTy)
    (W : VTy) (j : KEl J)
    (h : n.GetAnyValueMap GetTypeName J = m.GetAnyValueMap GetTypeName J) :
    n.Find GetTypeName W J j = m.Find GetTypeName W J j := by
  simp [Find, Find_Internal, h]

theorem Get_of_Num_eq_zero (m : FUnrealAnyMap Tag KEl VEl) (GetTypeName : KTy → Tag)
    (J : KTy) (W : VTy) (j : KEl J) (out : VEl W) (h : m.Num GetTypeName J = 0) :
    m.Get GetTypeName J W j out = (false, out) := by
  cases hg : m.GetAnyValueMap GetTypeName J with
  | none => simp [Get, Get_Internal, hg]
  | some s =>
    have hs : s.Map.Num = 0 := by simpa [Num, hg, FUnrealAnyValueMap.Num] using h
    simp only [Get, Get_Internal, hg]
    exact FUnrealAnyValueMap.Get_of_Find_none s W j out (TMap.Find_of_Num_eq_zero s.Map j hs)

theorem GetAnyValueMap_Write_same (m : FUnrealAnyMap Tag KEl VEl) (GetTypeName : KTy → Tag)
    (K : KTy) (s r : FUnrealAnyValueMap KEl VEl K)
    (h : m.GetAnyValueMap GetTypeName K = some s) :
    (m.WriteAnyValueMap GetTypeName K r).GetAnyValueMap GetTypeName K = some r := by
  rw [GetAnyValueMap_eq_some_iff, Map_Find_WriteAnyValueMap,
    (GetAnyValueMap_eq_some_iff m GetTypeName K s).1 h]
  simp

theorem Num_getD (m : FUnrealAnyMap Tag KEl VEl) (GetTypeName : KTy → Tag) (K : KTy) :
    ((m.GetAnyValueMap GetTypeName K).getD ⟨TMap.empty⟩).Num = m.Num GetTypeName K := by
  cases h : m.GetAnyValueMap GetTypeName K with
  | none => simp [Num, h, FUnrealAnyValueMap.Num, TMap.Num_empty]
  | some s => simp [Num, h]

theorem Num_of_GetAnyValueMap_none (m : FUnrealAnyMap Tag KEl VEl) (GetTypeName : KTy → Tag)
    (K : KTy) (h : m.GetAnyValueMap GetTypeName K = none) : m.Num GetTypeName K = 0 := by
  simp [Num, h]

theorem removed_last (m : FUnrealAnyMap Tag KEl VEl) (GetTypeName : KTy → Tag)
    (K : KTy) (s r : FUnrealAnyValueMap KEl VEl K)
    (h : m.GetAnyValueMap GetTypeName K = some s) :
    ((m.WriteAnyValueMap GetTypeName K r).RemoveSubMap GetTypeName K).Map.Find
        (GetTypeName K) = none ∧
      ((m.WriteAnyValueMap GetTypeName K r).RemoveSubMap GetTypeName K).NumKeyTypes + 1
        = m.NumKeyTypes := by
  constructor
  · simp [Map_Find_RemoveSubMap]
  · have h1 := NumKeyTypes_RemoveSubMap (m.WriteAnyValueMap GetTypeName K r) GetTypeName K
    rw [Map_Find_WriteAnyValueMap, NumKeyTypes_WriteAnyValueMap,
      (GetAnyValueMap_eq_some_iff m GetTypeName K s).1 h] at h1
    simpa using h1

theorem Map_Find_Add_cases (m : FUnrealAnyMap Tag KEl VEl) (GetTypeName : KTy → Tag)
    (K : KTy) (V : VTy) (k : KEl K) (v : VEl V) (t : Tag)
    (a : StdAny (FUnrealAnyValueMap KEl VEl))
    (h : (m.Add GetTypeName K V k v).Map.Find t = some a) :
    m.Map.Find t = some a ∨ (t = GetTypeName K ∧ a.type = K ∧ 0 < a.value.Num) := by
  rw [Map_Find_Add] at h
  by_cases ht : t = GetTypeName K
  · right
    rw [if_pos ht] at h
    cases h
    refine ⟨ht, rfl, ?_⟩
    apply TMap.Num_pos_of_Find _ k ⟨V, v⟩
    rw [FUnrealAnyValueMap.Store_Find_Add]
    simp
  · left
    rw [if_neg ht] at h
    exact h

theorem Map_Find_Remove_cases (m : FUnrealAnyMap Tag KEl VEl) (GetTypeName : KTy → Tag)
    (K : KTy) (k : KEl K) (t : Tag) (a : StdAny (FUnrealAnyValueMap KEl VEl))
    (h : (m.Remove GetTypeName K k).1.Map.Find t = some a) :
    m.Map.Find t = some a ∨ (t = GetTypeName K ∧ a.type = K ∧ 0 < a.value.Num) := by
  by_cases ht : t = GetTypeName K
  · cases hg : m.GetAnyValueMap GetTypeName K with
    | none =>
      rw [Remove_eq_of_none m GetTypeName K k hg] at h
      exact Or.inl h
    | some s =>
      have hm := (GetAnyValueMap_eq_some_iff m GetTypeName K s).1 hg
      cases hf : (s.Map.Find k).isSome with
      | false =>
        have hf2 : s.Map.Find k = none := by simpa using hf
        rw [Remove_eq_of_absent m GetTypeName K k s hg hf2,
          FUnrealAnyValueMap.Remove_fst_of_Find_none s k hf2] at h
        left
        rw [Map_Find_WriteAnyValueMap, if_pos ht, hm] at h
        rw [ht, hm]
        exact h
      | true =>
        by_cases hn : (s.Remove k).1.Num = 0
        · rw [Remove_eq_of_last m GetTypeName K k s hg hf hn, Map_Find_RemoveSubMap,
            if_pos ht] at h
          cases h
        · rw [Remove_eq_of_more m GetTypeName K k s hg hf hn, Map_Find_WriteAnyValueMap,
            if_pos ht, hm] at h
          right
          cases h
          exact ⟨ht, rfl, Nat.pos_of_ne_zero hn⟩
  · left
    rw [Map_Find_Remove_other m GetTypeName K k t ht] at h
    exact h

theorem Map_Find_EmptySubMap_cases (m : FUnrealAnyMap Tag KEl VEl) (GetTypeName : KTy → Tag)
    (K : KTy) (n : Int) (t : Tag) (a : StdAny (FUnrealAnyValueMap KEl VEl))
    (h : (m.EmptySubMap GetTypeName K n).1.Map.Find t = some a) :
    m.Map.Find t = some a ∨ (0 < n ∧ t = GetTypeName K ∧ a.type = K) := by
  by_cases ht : t = GetTypeName K
  · cases hg : m.GetAnyValueMap GetTypeName K with
    | none =>
      rw [EmptySubMap_eq_of_none m GetTypeName K n hg] at h
      exact Or.inl h
    | some s =>
      by_cases hn : n ≤ 0
      · rw [EmptySubMap_eq_of_nonpos m GetTypeName K n s hg hn, Map_Find_RemoveSubMap,
          if_pos ht] at h
        cases h
      · have hn2 : 0 < n := by omega
        rw [EmptySubMap_eq_of_pos m GetTypeName K n s hg hn2, Map_Find_WriteAnyValueMap,
          if_pos ht, (GetAnyValueMap_eq_some_iff m GetTypeName K s).1 hg] at h
        right
        cases h
        exact ⟨hn2, ht, rfl⟩
  · left
    rw [Map_Find_EmptySubMap_other m GetTypeName K n t ht] at h
    exact h

/-- Every entry of the outer map sits under the type name of the key type of the
store it holds. -/
def StoresTyped (GetTypeName : KTy → Tag) (m : FUnrealAnyMap Tag KEl VEl) : Prop :=
  ∀ t a, m.Map.Find t = some a → GetTypeName a.type = t

/-- Every store in the outer map holds at least one entry. -/
def NoEmptyStore (m : FUnrealAnyMap Tag KEl VEl) : Prop :=
  ∀ t a, m.Map.Find t = some a → 0 < a.value.Num

theorem StoresTyped_apply (GetTypeName : KTy → Tag) (m : FUnrealAnyMap Tag KEl VEl)
    (c : Call KEl VEl) (h : StoresTyped GetTypeName m) :
    StoresTyped GetTypeName (c.apply GetTypeName m) := by
  intro t a ha
  cases c with
  | Add K V k v =>
    rcases Map_Find_Add_cases m GetTypeName K V k v t a ha with h1 | ⟨h1, h2, _⟩
    · exact h t a h1
    · rw [h2, h1]
  | Remove K k =>
    rcases Map_Find_Remove_cases m GetTypeName K k t a ha with h1 | ⟨h1, h2, _⟩
    · exact h t a h1
    · rw [h2, h1]
  | Empty n => cases ha
  | EmptySubMap K n =>
    rcases Map_Find_EmptySubMap_cases m GetTypeName K n t a ha with h1 | ⟨_, h1, h2⟩
    · exact h t a h1
    · rw [h2, h1]

theorem NoEmptyStore_apply (GetTypeName : KTy → Tag) (m : FUnrealAnyMap Tag KEl VEl)
    (c : Call KEl VEl) (hc : c.positiveHint = false) (h : NoEmptyStore m) :
    NoEmptyStore (c.apply GetTypeName m) := by
  intro t a ha
  cases c with
  | Add K V k v =>
    rcases Map_Find_Add_cases m GetTypeName K V k v t a ha with h1 | ⟨_, _, h3⟩
    · exact h t a h1
    · exact h3
  | Remove K k =>
    rcases Map_Find_Remove_cases m GetTypeName K k t a ha with h1 | ⟨_, _, h3⟩
    · exact h t a h1
    · exact h3
  | Empty n => cases ha
  | EmptySubMap K n =>
    rcases Map_Find_EmptySubMap_cases m GetTypeName K n t a ha with h1 | ⟨h1, _, _⟩
    · exact h t a h1
    · simp [Call.positiveHint, h1] at hc

theorem StoresTyped_runFrom (GetTypeName : KTy → Tag) (calls : List (Call KEl VEl))
    (m : FUnrealAnyMap Tag KEl VEl) (h : StoresTyped GetTypeName m) :
    StoresTyped GetTypeName (Call.runFrom GetTypeName m calls) := by
  induction calls generalizing m with
  | nil => exact h
  | cons c cs ih => exact ih _ (StoresTyped_apply GetTypeName m c h)

theorem NoEmptyStore_runFrom (GetTypeName : KTy → Tag) (calls : List (Call KEl VEl))
    (hc : ∀ c ∈ calls, c.positiveHint = false)
    (m : FUnrealAnyMap Tag KEl VEl) (h : NoEmptyStore m) :
    NoEmptyStore (Call.runFrom GetTypeName m calls) := by
  induction calls generalizing m with
  | nil => exact h
  | cons c cs ih =>
    exact ih (fun d hd => hc d (List.mem_cons_of_mem c hd)) _
      (NoEmptyStore_apply GetTypeName m c (hc c (List.mem_cons_self c cs)) h)

theorem card_key_types (GetTypeName : KTy → Tag) (m : FUnrealAnyMap Tag KEl VEl)
    (h1 : StoresTyped GetTypeName m) (h2 : NoEmptyStore m) :
    ∃ S : Finset KTy, (∀ K, K ∈ S ↔ 0 < m.Num GetTypeName K) ∧ S.card = m.NumKeyTypes := by
  have hty : ∀ p ∈ m.Map.Pairs, GetTypeName p.2.type = p.1 := fun p hp =>
    h1 p.1 p.2 ((TMap.Find_eq_some_iff m.Map p.1 p.2).2 hp)
  have hmap : (m.Map.Pairs.map (fun p => p.2.type)).map GetTypeName
      = assocKeys m.Map.Pairs := by
    rw [List.map_map]
    exact List.map_congr_left hty
  have hnd : (m.Map.Pairs.map (fun p => p.2.type)).Nodup := by
    apply List.Nodup.of_map GetTypeName
    rw [hmap]
    exact m.Map.unique
  refine ⟨(m.Map.Pairs.map (fun p => p.2.type)).toFinset, ?_, ?_⟩
  · intro K
    rw [List.mem_toFinset, List.mem_map]
    constructor
    · rintro ⟨p, hp, hK⟩
      have hf : m.Map.Find p.1 = some p.2 := (TMap.Find_eq_some_iff m.Map p.1 p.2).2 hp
      have hpos := h2 p.1 p.2 hf
      have hp1 : p.1 = GetTypeName K := by rw [← hK]; exact (hty p hp).symm
      obtain ⟨t, ⟨ty, st⟩⟩ := p
      simp only at hK hp1 hf hpos
      subst hK
      subst hp1
      have hg := (GetAnyValueMap_eq_some_iff m GetTypeName ty st).2 hf
      simpa [Num, hg] using hpos
    · intro hpos
      cases hg : m.GetAnyValueMap GetTypeName K with
      | none => simp [Num, hg] at hpos
      | some s =>
        have hf := (GetAnyValueMap_eq_some_iff m GetTypeName K s).1 hg
        exact ⟨(GetTypeName K, ⟨K, s⟩), (TMap.Find_eq_some_iff m.Map _ _).1 hf, rfl⟩
  · rw [List.toFinset_card_of_nodup hnd, List.length_map]
    rfl

theorem WriteAnyValueMap_eq_self (m : FUnrealAnyMap Tag KEl VEl) (GetTypeName : KTy → Tag)
    (K : KTy) (s : FUnrealAnyValueMap KEl VEl K)
    (h : m.GetAnyValueMap GetTypeName K = some s) :
    m.WriteAnyValueMap GetTypeName K s = m := by
  have hf := (GetAnyValueMap_eq_some_iff m GetTypeName K s).1 h
  obtain ⟨M⟩ := m
  simp only [WriteAnyValueMap]
  rw [TMap.Assign_eq_self M (GetTypeName K) ⟨K, s⟩ hf]

theorem Get_eq_of_some (m : FUnrealAnyMap Tag KEl VEl) (GetTypeName : KTy → Tag)
    (K : KTy) (V : VTy) (k : KEl K) (out : VEl V) (s : FUnrealAnyValueMap KEl VEl K)
    (h : m.GetAnyValueMap GetTypeName K = some s) :
    m.Get GetTypeName K V k out = s.Get V k out := by
  simp [Get, Get_Internal, h]

theorem Get_eq_of_none (m : FUnrealAnyMap Tag KEl VEl) (GetTypeName : KTy → Tag)
    (K : KTy) (V : VTy) (k : KEl K) (out : VEl V)
    (h : m.GetAnyValueMap GetTypeName K = none) :
    m.Get GetTypeName K V k out = (false, out) := by
  simp [Get, Get_Internal, h]

theorem Find_eq_of_some (m : FUnrealAnyMap Tag KEl VEl) (GetTypeName : KTy → Tag)
    (K : KTy) (V : VTy) (k : KEl K) (s : FUnrealAnyValueMap KEl VEl K)
    (h : m.GetAnyValueMap GetTypeName K = some s) :
    m.Find GetTypeName V K k = s.Find V k := by
  simp [Find, Find_Internal, h]

theorem Find_eq_of_none (m : FUnrealAnyMap Tag KEl VEl) (GetTypeName : KTy → Tag)
    (K : KTy) (V : VTy) (k : KEl K)
    (h : m.GetAnyValueMap GetTypeName K = none) :
    m.Find GetTypeName V K k = none := by
  simp [Find, Find_Internal, h]

theorem Remove_eq_self_of_absent (m : FUnrealAnyMap Tag KEl VEl) (GetTypeName : KTy → Tag)
    (K : KTy) (k : KEl K) (s : FUnrealAnyValueMap KEl VEl K)
    (h : m.GetAnyValueMap GetTypeName K = some s) (hf : s.Map.Find k = none) :
    m.Remove GetTypeName K k = (m, false) := by
  rw [Remove_eq_of_absent m GetTypeName K k s h hf,
    FUnrealAnyValueMap.Remove_fst_of_Find_none s k hf,
    WriteAnyValueMap_eq_self m GetTypeName K s h]

theorem Remove_snd_iff (m : FUnrealAnyMap Tag KEl VEl) (GetTypeName : KTy → Tag)
    (K : KTy) (k : KEl K) :
    (m.Remove GetTypeName K k).2 = true ↔
      ∃ s, m.GetAnyValueMap GetTypeName K = some s ∧ (s.Map.Find k).isSome = true := by
  cases hg : m.GetAnyValueMap GetTypeName K with
  | none =>
    rw [Remove_eq_of_none m GetTypeName K k hg]
    simp
  | some s =>
    cases hf : (s.Map.Find k).isSome with
    | false =>
      have hf2 : s.Map.Find k = none := by simpa using hf
      rw [Remove_eq_self_of_absent m GetTypeName K k s hg hf2]
      simp [hf2]
    | true =>
      have h2 : (m.Remove GetTypeName K k).2 = true := by
        by_cases hn : (s.Remove k).1.Num = 0
        · rw [Remove_eq_of_last m GetTypeName K k s hg hf hn]
        · rw [Remove_eq_of_more m GetTypeName K k s hg hf hn]
      simp only [h2, true_iff]
      exact ⟨s, rfl, hf⟩

theorem Num_Add_same (m : FUnrealAnyMap Tag KEl VEl) (GetTypeName : KTy → Tag)
    (K : KTy) (V : VTy) (k : KEl K) (v : VEl V) :
    (m.Add GetTypeName K V k v).Num GetTypeName K =
      if (((m.GetAnyValueMap GetTypeName K).getD ⟨TMap.empty⟩).Map.Find k).isSome
      then m.Num GetTypeName K else m.Num GetTypeName K + 1 := by
  rw [← Num_getD m GetTypeName K]
  simp only [Num, GetAnyValueMap_Add_same]
  exact FUnrealAnyValueMap.Store_Num_Add _ V k v

theorem Find_some_of_GetAnyValueMap_isSome (m : FUnrealAnyMap Tag KEl VEl)
    (GetTypeName : KTy → Tag) (K : KTy)
    (h : (m.GetAnyValueMap GetTypeName K).isSome = true) :
    (m.Map.Find (GetTypeName K)).isSome = true := by
  obtain ⟨s, hs⟩ := Option.isSome_iff_exists.1 h
  rw [(GetAnyValueMap_eq_some_iff m GetTypeName K s).1 hs]
  rfl

theorem GetAnyValueMap_eq_none_of_typed (m : FUnrealAnyMap Tag KEl VEl)
    (GetTypeName : KTy → Tag) (K : KTy)
    (hty : ∀ a, m.Map.Find (GetTypeName K) = some a → a.type = K) :
    m.GetAnyValueMap GetTypeName K = none ↔ m.Map.Find (GetTypeName K) = none := by
  constructor
  · intro h
    cases hf : m.Map.Find (GetTypeName K) with
    | none => rfl
    | some a =>
      obtain ⟨t, r⟩ := a
      have ht : t = K := hty _ hf
      subst ht
      rw [(GetAnyValueMap_eq_some_iff m GetTypeName t r).2 hf] at h
      cases h
  · exact GetAnyValueMap_of_Find_none m GetTypeName K

theorem typed_of_injective (GetTypeName : KTy → Tag) (m : FUnrealAnyMap Tag KEl VEl)
    (hinj : Function.Injective GetTypeName) (h : StoresTyped GetTypeName m) (K : KTy)
    (a : StdAny (FUnrealAnyValueMap KEl VEl)) (ha : m.Map.Find (GetTypeName K) = some a) :
    a.type = K :=
  hinj (h (GetTypeName K) a ha)

theorem StoresTyped_run (GetTypeName : KTy → Tag) (calls : List (Call KEl VEl)) :
    StoresTyped GetTypeName (Call.run GetTypeName calls : FUnrealAnyMap Tag KEl VEl) := by
  apply StoresTyped_runFrom
  intro t a ha
  cases ha

theorem Add_of_Find_none (m : FUnrealAnyMap Tag KEl VEl) (GetTypeName : KTy → Tag)
    (K : KTy) (V : VTy) (k : KEl K) (v : VEl V)
    (h : m.Map.Find (GetTypeName K) = none) :
    (m.Add GetTypeName K V k v).NumKeyTypes = m.NumKeyTypes + 1 ∧
      (m.Add GetTypeName K V k v).Num GetTypeName K = 1 := by
  have hg := GetAnyValueMap_of_Find_none m GetTypeName K h
  constructor
  · rw [NumKeyTypes_Add, h]
    rfl
  · rw [Num_Add_same, hg, Num_of_GetAnyValueMap_none m GetTypeName K hg]
    rfl

theorem Store_Find_getD_of_absent (m : FUnrealAnyMap Tag KEl VEl) (GetTypeName : KTy → Tag)
    (K : KTy) (k : KEl K)
    (h : ∀ s, m.GetAnyValueMap GetTypeName K = some s → s.Map.Find k = none) :
    ((m.GetAnyValueMap GetTypeName K).getD ⟨TMap.empty⟩).Map.Find k = none := by
  cases hg : m.GetAnyValueMap GetTypeName K with
  | none => rfl
  | some s => exact h s hg

end FUnrealAnyMap

/-! ## A concrete universe of types

Three key types and two value types, used to evaluate the definitions on concrete
inputs. -/

/-- Key types `int`, `long` and `const char*`. -/
inductive ExKey where
  | int
  | long
  | cstr
  deriving DecidableEq

/-- Keys of the three key types: integers, and addresses for `const char*`. -/
@[reducible] def ExKey.El : ExKey → Type
  | .int => Int
  | .long => Int
  | .cstr => Nat

instance ExKey.decEl : (K : ExKey) → DecidableEq (ExKey.El K)
  | .int => inferInstanceAs (DecidableEq Int)
  | .long => inferInstanceAs (DecidableEq Int)
  | .cstr => inferInstanceAs (DecidableEq Nat)

/-- Value types `int` and `FString`. -/
inductive ExVal where
  | int
  | fstring
  deriving DecidableEq

/-- Values of the two value types. -/
@[reducible] def ExVal.El : ExVal → Type
  | .int => Int
  | .fstring => String

/-- One type name per key type. -/
def ExKey.name : ExKey → Nat
  | .int => 0
  | .long => 1
  | .cstr => 2

/-- The empty composite map over the concrete universe. -/
def ExNew : FUnrealAnyMap Nat ExKey.El ExVal.El :=
  FUnrealAnyMap.New

/-- The empty store of key type `int` over the concrete universe. -/
def ExStore : FUnrealAnyValueMap ExKey.El ExVal.El ExKey.int :=
  ⟨TMap.empty⟩

/-- The composite map after `Add(1, 5)` under key type `int` on the empty map. -/
def ExOne : FUnrealAnyMap Nat ExKey.El ExVal.El :=
  ExNew.Add ExKey.name ExKey.int ExVal.int (1 : Int) (5 : Int)

/-- A sequence of calls without `Empty<K>` with a positive hint. -/
def ExCalls : List (Call ExKey.El ExVal.El) :=
  [Call.Add ExKey.int ExVal.int (1 : Int) (5 : Int),
    Call.Add ExKey.long ExVal.fstring (1 : Int) "one",
    Call.Remove ExKey.int (1 : Int),
    Call.EmptySubMap ExKey.cstr 0]

/-- A sequence of calls with an `Empty<K>` of a positive hint and a whole-map
`Empty`. -/
def ExCallsAll : List (Call ExKey.El ExVal.El) :=
  [Call.Add ExKey.int ExVal.int (1 : Int) (5 : Int),
    Call.EmptySubMap ExKey.int 16,
    Call.Add ExKey.cstr ExVal.fstring (4096 : Nat) "foo",
    Call.Empty 0,
    Call.Add ExKey.long ExVal.int (1 : Int) (6 : Int),
    Call.Remove ExKey.long (2 : Int)]

section Claims

variable {Tag KTy VTy : Type} {KEl : KTy → Type} {VEl : VTy → Type}
variable [DecidableEq Tag] [DecidableEq KTy] [DecidableEq VTy] [∀ K, DecidableEq (KEl K)]

/-- C5. Type isolation: when the type names of the key types `K` and `J` differ,
`Add<K,_>`, `Remove<K>` and `Empty<K>` change neither `Num<J>()` nor the result of
any `Get<J,W>` or `Find<W,J>`; in particular, on a map with no entries of key type
`J`, a `Get` under `J` after an `Add` under `K` returns false. -/
theorem C5_type_isolation (m : FUnrealAnyMap Tag KEl VEl) (GetTypeName : KTy → Tag)
    (K J : KTy) (h : GetTypeName K ≠ GetTypeName J) (V : VTy) (k : KEl K) (v : VEl V)
    (hint : Int) (W : VTy) (j : KEl J) (out : VEl W) :
    ((m.Add GetTypeName K V k v).Num GetTypeName J = m.Num GetTypeName J ∧
        (m.Add GetTypeName K V k v).Get GetTypeName J W j out = m.Get GetTypeName J W j out ∧
        (m.Add GetTypeName K V k v).Find GetTypeName W J j = m.Find GetTypeName W J j) ∧
      ((m.Remove GetTypeName K k).1.Num GetTypeName J = m.Num GetTypeName J ∧
        (m.Remove GetTypeName K k).1.Get GetTypeName J W j out = m.Get GetTypeName J W j out ∧
        (m.Remove GetTypeName K k).1.Find GetTypeName W J j = m.Find GetTypeName W J j) ∧
      ((m.EmptySubMap GetTypeName K hint).1.Num GetTypeName J = m.Num GetTypeName J ∧
        (m.EmptySubMap GetTypeName K hint).1.Get GetTypeName J W j out
          = m.Get GetTypeName J W j out ∧
        (m.EmptySubMap GetTypeName K hint).1.Find GetTypeName W J j
          = m.Find GetTypeName W J j) ∧
      (m.Num GetTypeName J = 0 →
        (m.Add GetTypeName K V k v).Get GetTypeName J W j out = (false, out)) := by
  have hJ : GetTypeName J ≠ GetTypeName K := fun e => h e.symm
  have hA := FUnrealAnyMap.GetAnyValueMap_Add_other m GetTypeName K J V k v hJ
  have hR : (m.Remove GetTypeName K k).1.GetAnyValueMap GetTypeName J
      = m.GetAnyValueMap GetTypeName J :=
    FUnrealAnyMap.GetAnyValueMap_congr _ _ GetTypeName J
      (FUnrealAnyMap.Map_Find_Remove_other m GetTypeName K k _ hJ)
  have hE : (m.EmptySubMap GetTypeName K hint).1.GetAnyValueMap GetTypeName J
      = m.GetAnyValueMap GetTypeName J :=
    FUnrealAnyMap.GetAnyValueMap_congr _ _ GetTypeName J
      (FUnrealAnyMap.Map_Find_EmptySubMap_other m GetTypeName K hint _ hJ)
  refine ⟨⟨?_, ?_, ?_⟩, ⟨?_, ?_, ?_⟩, ⟨?_, ?_, ?_⟩, ?_⟩
  · exact FUnrealAnyMap.Num_congr _ _ GetTypeName J hA
  · exact FUnrealAnyMap.Get_congr _ _ GetTypeName J W j out hA
  · exact FUnrealAnyMap.Find_congr _ _ GetTypeName J W j hA
  · exact FUnrealAnyMap.Num_congr _ _ GetTypeName J hR
  · exact FUnrealAnyMap.Get_congr _ _ GetTypeName J W j out hR
  · exact FUnrealAnyMap.Find_congr _ _ GetTypeName J W j hR
  · exact FUnrealAnyMap.Num_congr _ _ GetTypeName J hE
  · exact FUnrealAnyMap.Get_congr _ _ GetTypeName J W j out hE
  · exact FUnrealAnyMap.Find_congr _ _ GetTypeName J W j hE
  · intro h0
    rw [FUnrealAnyMap.Get_congr _ _ GetTypeName J W j out hA]
    exact FUnrealAnyMap.Get_of_Num_eq_zero m GetTypeName J W j out h0


/-- Witness of C5: key types `int` and `long` with key value 1, on the map
holding one entry under `int`. -/
theorem C5_type_isolation_witness :
    ExKey.name ExKey.int ≠ ExKey.name ExKey.long ∧
      ((ExOne.Add ExKey.name ExKey.int ExVal.int (1 : Int) (7 : Int)).Num ExKey.name ExKey.long
          = ExOne.Num ExKey.name ExKey.long ∧
        (ExOne.Remove ExKey.name ExKey.int (1 : Int)).1.Get ExKey.name ExKey.long ExVal.int
            (1 : Int) (0 : Int)
          = ExOne.Get ExKey.name ExKey.long ExVal.int (1 : Int) (0 : Int) ∧
        (ExOne.EmptySubMap ExKey.name ExKey.int 16).1.Find ExKey.name ExVal.int ExKey.long
            (1 : Int)
          = ExOne.Find ExKey.name ExVal.int ExKey.long (1 : Int) ∧
        (ExOne.Add ExKey.name ExKey.int ExVal.int (1 : Int) (7 : Int)).Get ExKey.name
            ExKey.long ExVal.int (1 : Int) (0 : Int) = (false, (0 : Int))) :=
  have h := C5_type_isolation ExOne ExKey.name ExKey.int ExKey.long (by decide) ExVal.int
    (1 : Int) (7 : Int) 16 ExVal.int (1 : Int) (0 : Int)
  ⟨by decide, h.1.1, h.2.1.2.1, h.2.2.1.2.2, h.2.2.2 (by decide)⟩

/-- C6. Remove drains the bucket: when `Num<K>()` is 0, after `Add<K,V>(k, v)` the
call `Remove<K>(k)` returns true, the type name of `K` is no longer in the map (no
store for `K`), `NumKeyTypes()` is one less than right after the `Add`, and
`Num<K>()` is 0. -/
theorem C6_remove_drains_bucket (m : FUnrealAnyMap Tag KEl VEl) (GetTypeName : KTy → Tag)
    (K : KTy) (V : VTy) (k : KEl K) (v : VEl V) (h : m.Num GetTypeName K = 0) :
    ((m.Add GetTypeName K V k v).Remove GetTypeName K k).2 = true ∧
      ((m.Add GetTypeName K V k v).Remove GetTypeName K k).1.Map.Find (GetTypeName K)
        = none ∧
      ((m.Add GetTypeName K V k v).Remove GetTypeName K k).1.GetAnyValueMap GetTypeName K
        = none ∧
      ((m.Add GetTypeName K V k v).Remove GetTypeName K k).1.NumKeyTypes + 1
        = (m.Add GetTypeName K V k v).NumKeyTypes ∧
      ((m.Add GetTypeName K V k v).Remove GetTypeName K k).1.Num GetTypeName K = 0 := by
  have hg := FUnrealAnyMap.GetAnyValueMap_Add_same m GetTypeName K V k v
  have h0 := FUnrealAnyMap.Num_getD m GetTypeName K
  rw [h] at h0
  generalize (m.GetAnyValueMap GetTypeName K).getD ⟨TMap.empty⟩ = s0 at hg h0
  have hk0 : s0.Map.Find k = none := TMap.Find_of_Num_eq_zero s0.Map k h0
  have hf : ((s0.Add V k v).Map.Find k).isSome = true := by
    rw [FUnrealAnyValueMap.Store_Find_Add]
    simp
  have hn : ((s0.Add V k v).Remove k).1.Num = 0 := by
    have h1 := FUnrealAnyValueMap.Store_Num_Remove (s0.Add V k v) k
    rw [hf, FUnrealAnyValueMap.Store_Num_Add, hk0, h0] at h1
    simpa using h1
  rw [FUnrealAnyMap.Remove_eq_of_last _ GetTypeName K k _ hg hf hn]
  obtain ⟨h1, h2⟩ := FUnrealAnyMap.removed_last (m.Add GetTypeName K V k v) GetTypeName K
    (s0.Add V k v) ((s0.Add V k v).Remove k).1 hg
  have h3 := FUnrealAnyMap.GetAnyValueMap_of_Find_none _ GetTypeName K h1
  exact ⟨rfl, h1, h3, h2, FUnrealAnyMap.Num_of_GetAnyValueMap_none _ GetTypeName K h3⟩


/-- Witness of C6: `Add(1, 5)` then `Remove(1)` under key type `int` on the empty
map. -/
theorem C6_remove_drains_bucket_witness :
    ExNew.Num ExKey.name ExKey.int = 0 ∧
      ((ExNew.Add ExKey.name ExKey.int ExVal.int (1 : Int) (5 : Int)).Remove ExKey.name
          ExKey.int (1 : Int)).2 = true ∧
      ((ExNew.Add ExKey.name ExKey.int ExVal.int (1 : Int) (5 : Int)).Remove ExKey.name
          ExKey.int (1 : Int)).1.NumKeyTypes + 1
        = (ExNew.Add ExKey.name ExKey.int ExVal.int (1 : Int) (5 : Int)).NumKeyTypes ∧
      ((ExNew.Add ExKey.name ExKey.int ExVal.int (1 : Int) (5 : Int)).Remove ExKey.name
          ExKey.int (1 : Int)).1.Num ExKey.name ExKey.int = 0 :=
  have h := C6_remove_drains_bucket ExNew ExKey.name ExKey.int ExVal.int (1 : Int) (5 : Int)
    (by decide)
  ⟨by decide, h.1, h.2.2.2.1, h.2.2.2.2⟩

/-- C8. `Empty<K>` with a hint that is zero or negative destroys the bucket: when a
store for `K` exists, `Empty<K>(hint)` returns true, removes the type name of `K`
(no store for `K` remains), decreases `NumKeyTypes()` by exactly 1, and afterwards
`Num<K>()` is 0 and every `Get` under `K` returns false. -/
theorem C8_empty_nonpositive_hint_destroys (m : FUnrealAnyMap Tag KEl VEl)
    (GetTypeName : KTy → Tag) (K : KTy) (hint : Int)
    (hs : (m.GetAnyValueMap GetTypeName K).isSome = true) (hh : hint ≤ 0) :
    (m.EmptySubMap GetTypeName K hint).2 = true ∧
      (m.EmptySubMap GetTypeName K hint).1.Map.Find (GetTypeName K) = none ∧
      (m.EmptySubMap GetTypeName K hint).1.GetAnyValueMap GetTypeName K = none ∧
      (m.EmptySubMap GetTypeName K hint).1.NumKeyTypes + 1 = m.NumKeyTypes ∧
      (m.EmptySubMap GetTypeName K hint).1.Num GetTypeName K = 0 ∧
      (∀ (V : VTy) (k : KEl K) (out : VEl V),
        (m.EmptySubMap GetTypeName K hint).1.Get GetTypeName K V k out = (false, out)) := by
  obtain ⟨s, hg⟩ := Option.isSome_iff_exists.1 hs
  rw [FUnrealAnyMap.EmptySubMap_eq_of_nonpos m GetTypeName K hint s hg hh]
  have h1 : (m.RemoveSubMap GetTypeName K).Map.Find (GetTypeName K) = none := by
    simp [FUnrealAnyMap.Map_Find_RemoveSubMap]
  have h2 := FUnrealAnyMap.GetAnyValueMap_of_Find_none _ GetTypeName K h1
  have h3 := FUnrealAnyMap.Num_of_GetAnyValueMap_none _ GetTypeName K h2
  refine ⟨rfl, h1, h2, ?_, h3, ?_⟩
  · have h4 := FUnrealAnyMap.NumKeyTypes_RemoveSubMap m GetTypeName K
    rw [(FUnrealAnyMap.GetAnyValueMap_eq_some_iff m GetTypeName K s).1 hg] at h4
    simpa using h4
  · intro V k out
    exact FUnrealAnyMap.Get_of_Num_eq_zero _ GetTypeName K V k out h3


/-- Witness of C8: `Empty<int>(0)` on the map holding one entry under `int`. -/
theorem C8_empty_nonpositive_hint_destroys_witness :
    ((ExOne.GetAnyValueMap ExKey.name ExKey.int).isSome = true ∧ (0 : Int) ≤ 0) ∧
      (ExOne.EmptySubMap ExKey.name ExKey.int 0).2 = true ∧
      (ExOne.EmptySubMap ExKey.name ExKey.int 0).1.NumKeyTypes + 1 = ExOne.NumKeyTypes ∧
      (ExOne.EmptySubMap ExKey.name ExKey.int 0).1.Num ExKey.name ExKey.int = 0 :=
  have h := C8_empty_nonpositive_hint_destroys ExOne ExKey.name ExKey.int 0 (by decide)
    (by decide)
  ⟨⟨by decide, by decide⟩, h.1, h.2.2.2.1, h.2.2.2.2.1⟩

/-- C9. `Empty<K>` with a positive hint retains an empty bucket: when a store for
`K` exists, `Empty<K>(hint)` returns true, leaves `NumKeyTypes()` unchanged with the
store for `K` still in the map, and afterwards `Num<K>()` is 0 and every `Get` under
`K` returns false; any two positive hints give the same result. -/
theorem C9_empty_positive_hint_retains (m : FUnrealAnyMap Tag KEl VEl)
    (GetTypeName : KTy → Tag) (K : KTy) (hint : Int)
    (hs : (m.GetAnyValueMap GetTypeName K).isSome = true) (hh : 0 < hint) :
    (m.EmptySubMap GetTypeName K hint).2 = true ∧
      (m.EmptySubMap GetTypeName K hint).1.NumKeyTypes = m.NumKeyTypes ∧
      ((m.EmptySubMap GetTypeName K hint).1.GetAnyValueMap GetTypeName K).isSome = true ∧
      (m.EmptySubMap GetTypeName K hint).1.Num GetTypeName K = 0 ∧
      (∀ (V : VTy) (k : KEl K) (out : VEl V),
        (m.EmptySubMap GetTypeName K hint).1.Get GetTypeName K V k out = (false, out)) ∧
      (∀ hint2 : Int, 0 < hint2 →
        m.EmptySubMap GetTypeName K hint2 = m.EmptySubMap GetTypeName K hint) := by
  obtain ⟨s, hg⟩ := Option.isSome_iff_exists.1 hs
  rw [FUnrealAnyMap.EmptySubMap_eq_of_pos m GetTypeName K hint s hg hh]
  have h1 := FUnrealAnyMap.GetAnyValueMap_Write_same m GetTypeName K s ⟨TMap.empty⟩ hg
  have h3 : (m.WriteAnyValueMap GetTypeName K ⟨TMap.empty⟩).Num GetTypeName K = 0 := by
    simp [FUnrealAnyMap.Num, h1, FUnrealAnyValueMap.Num, TMap.Num_empty]
  refine ⟨rfl, FUnrealAnyMap.NumKeyTypes_WriteAnyValueMap _ _ _ _, ?_, h3, ?_, ?_⟩
  · rw [h1]
    rfl
  · intro V k out
    exact FUnrealAnyMap.Get_of_Num_eq_zero _ GetTypeName K V k out h3
  · intro hint2 h2
    exact FUnrealAnyMap.EmptySubMap_eq_of_pos m GetTypeName K hint2 s hg h2


/-- Witness of C9: `Empty<int>(16)` on the map holding one entry under `int`. -/
theorem C9_empty_positive_hint_retains_witness :
    ((ExOne.GetAnyValueMap ExKey.name ExKey.int).isSome = true ∧ (0 : Int) < 16) ∧
      (ExOne.EmptySubMap ExKey.name ExKey.int 16).2 = true ∧
      (ExOne.EmptySubMap ExKey.name ExKey.int 16).1.NumKeyTypes = ExOne.NumKeyTypes ∧
      (ExOne.EmptySubMap ExKey.name ExKey.int 16).1.Num ExKey.name ExKey.int = 0 :=
  have h := C9_empty_positive_hint_retains ExOne ExKey.name ExKey.int 16 (by decide)
    (by decide)
  ⟨⟨by decide, by decide⟩, h.1, h.2.1, h.2.2.2.1⟩

/-- C10. No stale empty stores: after any finite sequence, on a freshly
constructed `FUnrealAnyMap`, of calls of `Add`, `Remove`, whole-map `Empty` and
`Empty<K>` with a hint that is zero or negative, every store in the map holds at
least one entry, and `NumKeyTypes()` is the number of key types `K` with
`Num<K>() > 0`. -/
theorem C10_no_stale_empty_stores (GetTypeName : KTy → Tag) (calls : List (Call KEl VEl))
    (h : ∀ c ∈ calls, c.positiveHint = false) :
    (∀ t a, (Call.run GetTypeName calls : FUnrealAnyMap Tag KEl VEl).Map.Find t = some a →
        0 < a.value.Num) ∧
      ∃ S : Finset KTy,
        (∀ K, K ∈ S ↔
          0 < (Call.run GetTypeName calls : FUnrealAnyMap Tag KEl VEl).Num GetTypeName K) ∧
        S.card = (Call.run GetTypeName calls : FUnrealAnyMap Tag KEl VEl).NumKeyTypes := by
  have hnew1 : FUnrealAnyMap.StoresTyped GetTypeName
      (FUnrealAnyMap.New : FUnrealAnyMap Tag KEl VEl) := by
    intro t a ha
    cases ha
  have hnew2 : FUnrealAnyMap.NoEmptyStore (FUnrealAnyMap.New : FUnrealAnyMap Tag KEl VEl) := by
    intro t a ha
    cases ha
  have h1 := FUnrealAnyMap.StoresTyped_runFrom GetTypeName calls _ hnew1
  have h2 := FUnrealAnyMap.NoEmptyStore_runFrom GetTypeName calls h _ hnew2
  exact ⟨h2, FUnrealAnyMap.card_key_types GetTypeName _ h1 h2⟩


/-- Witness of C10: two `Add`s under `int` and `long`, a `Remove` that drains the
`int` store, and `Empty<cstr>(0)` on a key type with no store. -/
theorem C10_no_stale_empty_stores_witness :
    (∀ c ∈ ExCalls, c.positiveHint = false) ∧
      (∀ t a, (Call.run ExKey.name ExCalls : FUnrealAnyMap Nat ExKey.El ExVal.El).Map.Find t
          = some a → 0 < a.value.Num) ∧
      ∃ S : Finset ExKey,
        (∀ K, K ∈ S ↔
          0 < (Call.run ExKey.name ExCalls : FUnrealAnyMap Nat ExKey.El ExVal.El).Num
            ExKey.name K) ∧
        S.card = (Call.run ExKey.name ExCalls : FUnrealAnyMap Nat ExKey.El ExVal.El).NumKeyTypes :=
  have hc : ∀ c ∈ ExCalls, c.positiveHint = false := by
    intro c hc
    simp only [ExCalls, List.mem_cons, List.mem_singleton, List.not_mem_nil, or_false] at hc
    rcases hc with rfl | rfl | rfl | rfl <;> rfl
  ⟨hc, C10_no_stale_empty_stores ExKey.name ExCalls hc⟩

/-- C12. `Find` agrees with `Get`: `Find<V,K>(k)` returns null exactly when
`Get<K,V>(k, out)` returns false, and otherwise the value it points to is the value
that `Get` copies into `out`. -/
theorem C12_find_agrees_with_get (m : FUnrealAnyMap Tag KEl VEl) (GetTypeName : KTy → Tag)
    (K : KTy) (V : VTy) (k : KEl K) (out : VEl V) :
    (m.Find GetTypeName V K k = none ↔ (m.Get GetTypeName K V k out).1 = false) ∧
      (∀ x, m.Find GetTypeName V K k = some x → m.Get GetTypeName K V k out = (true, x)) := by
  cases hg : m.GetAnyValueMap GetTypeName K with
  | none =>
    rw [FUnrealAnyMap.Find_eq_of_none m GetTypeName K V k hg,
      FUnrealAnyMap.Get_eq_of_none m GetTypeName K V k out hg]
    simp
  | some s =>
    rw [FUnrealAnyMap.Find_eq_of_some m GetTypeName K V k s hg,
      FUnrealAnyMap.Get_eq_of_some m GetTypeName K V k out s hg]
    refine ⟨FUnrealAnyValueMap.Find_eq_none_iff s V k out, ?_⟩
    intro x hx
    cases hf : s.Map.Find k with
    | none => simp [FUnrealAnyValueMap.Find, hf] at hx
    | some a =>
      cases hc : any_cast V a with
      | none => simp [FUnrealAnyValueMap.Find, hf, hc] at hx
      | some y =>
        simp only [FUnrealAnyValueMap.Find, hf, hc, Option.some.injEq] at hx
        simp [FUnrealAnyValueMap.Get, hf, hc, hx]

/-- C13. Lazy store creation: `Add<K,V>(k, v)` increases `NumKeyTypes()` by exactly
1, and `Num<K>()` is 1 afterwards, when the map has no entry under the type name of
`K`; it leaves `NumKeyTypes()` unchanged when the map has an entry under that name,
in particular when `GetAnyValueMap<K>()` finds a store for `K`, also an empty store
retained by `Empty<K>` with a positive hint.  In a state reached by calls on a fresh
map, with distinct type names for distinct key types, a null `GetAnyValueMap<K>()`
means that there is no entry under the type name of `K`, so the increase by 1
applies. -/
theorem C13_lazy_store_creation (m : FUnrealAnyMap Tag KEl VEl) (GetTypeName : KTy → Tag)
    (K : KTy) (V : VTy) (k : KEl K) (v : VEl V) (hint : Int) :
    (m.Map.Find (GetTypeName K) = none →
        (m.Add GetTypeName K V k v).NumKeyTypes = m.NumKeyTypes + 1 ∧
          (m.Add GetTypeName K V k v).Num GetTypeName K = 1) ∧
      ((m.Map.Find (GetTypeName K)).isSome = true →
        (m.Add GetTypeName K V k v).NumKeyTypes = m.NumKeyTypes) ∧
      ((m.GetAnyValueMap GetTypeName K).isSome = true →
        (m.Add GetTypeName K V k v).NumKeyTypes = m.NumKeyTypes) ∧
      ((m.GetAnyValueMap GetTypeName K).isSome = true → 0 < hint →
        ((m.EmptySubMap GetTypeName K hint).1.GetAnyValueMap GetTypeName K).isSome = true ∧
          (m.EmptySubMap GetTypeName K hint).1.Num GetTypeName K = 0 ∧
          ((m.EmptySubMap GetTypeName K hint).1.Add GetTypeName K V k v).NumKeyTypes
            = (m.EmptySubMap GetTypeName K hint).1.NumKeyTypes) ∧
      (∀ calls : List (Call KEl VEl), Function.Injective GetTypeName →
        (Call.run GetTypeName calls : FUnrealAnyMap Tag KEl VEl).GetAnyValueMap GetTypeName K
          = none →
        ((Call.run GetTypeName calls : FUnrealAnyMap Tag KEl VEl).Add GetTypeName K V k
            v).NumKeyTypes
          = (Call.run GetTypeName calls : FUnrealAnyMap Tag KEl VEl).NumKeyTypes + 1 ∧
        ((Call.run GetTypeName calls : FUnrealAnyMap Tag KEl VEl).Add GetTypeName K V k
            v).Num GetTypeName K = 1) := by
  have hsome : ∀ n : FUnrealAnyMap Tag KEl VEl, (n.Map.Find (GetTypeName K)).isSome = true →
      (n.Add GetTypeName K V k v).NumKeyTypes = n.NumKeyTypes := by
    intro n hn
    rw [FUnrealAnyMap.NumKeyTypes_Add, hn]
    rfl
  refine ⟨FUnrealAnyMap.Add_of_Find_none m GetTypeName K V k v, hsome m, ?_, ?_, ?_⟩
  · intro hg
    exact hsome m (FUnrealAnyMap.Find_some_of_GetAnyValueMap_isSome m GetTypeName K hg)
  · intro hg hh
    obtain ⟨s, hs⟩ := Option.isSome_iff_exists.1 hg
    rw [FUnrealAnyMap.EmptySubMap_eq_of_pos m GetTypeName K hint s hs hh]
    have h1 := FUnrealAnyMap.GetAnyValueMap_Write_same m GetTypeName K s ⟨TMap.empty⟩ hs
    have h2 : ((m.WriteAnyValueMap GetTypeName K ⟨TMap.empty⟩).GetAnyValueMap
        GetTypeName K).isSome = true := by
      rw [h1]
      rfl
    refine ⟨h2, ?_, ?_⟩
    · simp [FUnrealAnyMap.Num, h1, FUnrealAnyValueMap.Num, TMap.Num_empty]
    · exact hsome _ (FUnrealAnyMap.Find_some_of_GetAnyValueMap_isSome _ GetTypeName K h2)
  · intro calls hinj hnone
    apply FUnrealAnyMap.Add_of_Find_none
    exact (FUnrealAnyMap.GetAnyValueMap_eq_none_of_typed _ GetTypeName K
      (FUnrealAnyMap.typed_of_injective GetTypeName _ hinj
        (FUnrealAnyMap.StoresTyped_run GetTypeName calls) K)).1 hnone


/-- Witness of C13: `Add(1, 5)` under `int` on the empty map creates the store, and
`Add(2, 7)` under `int` on the map holding one `int` entry creates none. -/
theorem C13_lazy_store_creation_witness :
    (ExNew.Map.Find (ExKey.name ExKey.int) = none ∧
        (ExNew.Add ExKey.name ExKey.int ExVal.int (1 : Int) (5 : Int)).NumKeyTypes
          = ExNew.NumKeyTypes + 1 ∧
        (ExNew.Add ExKey.name ExKey.int ExVal.int (1 : Int) (5 : Int)).Num ExKey.name
          ExKey.int = 1) ∧
      ((ExOne.GetAnyValueMap ExKey.name ExKey.int).isSome = true ∧
        (ExOne.Add ExKey.name ExKey.int ExVal.int (2 : Int) (7 : Int)).NumKeyTypes
          = ExOne.NumKeyTypes ∧
        ((ExOne.EmptySubMap ExKey.name ExKey.int 16).1.Add ExKey.name ExKey.int ExVal.int
            (2 : Int) (7 : Int)).NumKeyTypes
          = (ExOne.EmptySubMap ExKey.name ExKey.int 16).1.NumKeyTypes) :=
  have h0 : ExNew.Map.Find (ExKey.name ExKey.int) = none := rfl
  have h1 : (ExOne.GetAnyValueMap ExKey.name ExKey.int).isSome = true := by decide
  have a := (C13_lazy_store_creation ExNew ExKey.name ExKey.int ExVal.int (1 : Int)
    (5 : Int) 16).1 h0
  have b := C13_lazy_store_creation ExOne ExKey.name ExKey.int ExVal.int (2 : Int)
    (7 : Int) 16
  ⟨⟨h0, a.1, a.2⟩, h1, b.2.2.1 h1, (b.2.2.2.1 h1 (by decide)).2.2⟩

/-- C15. Whole-map `Empty(hint)` clears everything for a hint of any sign:
afterwards `NumKeyTypes()` is 0, the map has no entry under any type name,
`Num<K>()` is 0 for every key type, every `Get` returns false and every `Find`
returns null. -/
theorem C15_empty_clears_everything (m : FUnrealAnyMap Tag KEl VEl)
    (GetTypeName : KTy → Tag) (hint : Int) :
    (m.Empty hint).NumKeyTypes = 0 ∧
      (∀ t : Tag, (m.Empty hint).Map.Find t = none) ∧
      (∀ K : KTy, (m.Empty hint).Num GetTypeName K = 0) ∧
      (∀ (K : KTy) (V : VTy) (k : KEl K) (out : VEl V),
        (m.Empty hint).Get GetTypeName K V k out = (false, out)) ∧
      (∀ (K : KTy) (V : VTy) (k : KEl K), (m.Empty hint).Find GetTypeName V K k = none) := by
  have hg : ∀ K : KTy, (m.Empty hint).GetAnyValueMap GetTypeName K = none := fun K =>
    FUnrealAnyMap.GetAnyValueMap_of_Find_none _ GetTypeName K rfl
  refine ⟨rfl, fun _ => rfl, ?_, ?_, ?_⟩
  · intro K
    exact FUnrealAnyMap.Num_of_GetAnyValueMap_none _ GetTypeName K (hg K)
  · intro K V k out
    exact FUnrealAnyMap.Get_eq_of_none _ GetTypeName K V k out (hg K)
  · intro K V k
    exact FUnrealAnyMap.Find_eq_of_none _ GetTypeName K V k (hg K)

/-- C17. Entry count under `Add`: `Add<K,V>(k, v)` increases `Num<K>()` by exactly 1
when `k` had no entry under `K` before the call, and leaves `Num<K>()` unchanged when
`k` already had an entry, whatever the type of the old value; so on a map with
`Num<K>() = 0`, after `Add(k, v1)`, `Add(k, v2)` and `Remove(k)`, `Num<K>()` is 0
and there is no store for `K`. -/
theorem C17_entry_count_under_add (m : FUnrealAnyMap Tag KEl VEl) (GetTypeName : KTy → Tag)
    (K : KTy) (V V2 : VTy) (k : KEl K) (v : VEl V) (v2 : VEl V2) :
    ((∀ s, m.GetAnyValueMap GetTypeName K = some s → s.Map.Find k = none) →
        (m.Add GetTypeName K V k v).Num GetTypeName K = m.Num GetTypeName K + 1) ∧
      ((∃ s, m.GetAnyValueMap GetTypeName K = some s ∧ (s.Map.Find k).isSome = true) →
        (m.Add GetTypeName K V k v).Num GetTypeName K = m.Num GetTypeName K) ∧
      (m.Num GetTypeName K = 0 →
        (((m.Add GetTypeName K V k v).Add GetTypeName K V2 k v2).Remove
            GetTypeName K k).1.Num GetTypeName K = 0 ∧
          (((m.Add GetTypeName K V k v).Add GetTypeName K V2 k v2).Remove
            GetTypeName K k).1.GetAnyValueMap GetTypeName K = none ∧
          (((m.Add GetTypeName K V k v).Add GetTypeName K V2 k v2).Remove
            GetTypeName K k).1.Map.Find (GetTypeName K) = none) := by
  refine ⟨?_, ?_, ?_⟩
  · intro habs
    rw [FUnrealAnyMap.Num_Add_same,
      FUnrealAnyMap.Store_Find_getD_of_absent m GetTypeName K k habs]
    rfl
  · rintro ⟨s, hs, hf⟩
    rw [FUnrealAnyMap.Num_Add_same, hs, Option.getD_some, hf]
    rfl
  · intro h0
    have hg1 := FUnrealAnyMap.GetAnyValueMap_Add_same m GetTypeName K V k v
    have hg2 := FUnrealAnyMap.GetAnyValueMap_Add_same (m.Add GetTypeName K V k v)
      GetTypeName K V2 k v2
    rw [hg1, Option.getD_some] at hg2
    have hn0 := FUnrealAnyMap.Num_getD m GetTypeName K
    rw [h0] at hn0
    generalize (m.GetAnyValueMap GetTypeName K).getD ⟨TMap.empty⟩ = s0 at hg1 hg2 hn0
    generalize (m.Add GetTypeName K V k v).Add GetTypeName K V2 k v2 = m2 at hg2
    have hk0 : s0.Map.Find k = none := TMap.Find_of_Num_eq_zero s0.Map k hn0
    have hf1 : ((s0.Add V k v).Map.Find k).isSome = true := by
      simp [FUnrealAnyValueMap.Store_Find_Add]
    have hf : (((s0.Add V k v).Add V2 k v2).Map.Find k).isSome = true := by
      simp [FUnrealAnyValueMap.Store_Find_Add]
    have hn : (((s0.Add V k v).Add V2 k v2).Remove k).1.Num = 0 := by
      have h1 := FUnrealAnyValueMap.Store_Num_Remove ((s0.Add V k v).Add V2 k v2) k
      rw [hf, FUnrealAnyValueMap.Store_Num_Add, hf1, FUnrealAnyValueMap.Store_Num_Add, hk0,
        hn0] at h1
      simpa using h1
    rw [FUnrealAnyMap.Remove_eq_of_last m2 GetTypeName K k _ hg2 hf hn]
    have h1 := (FUnrealAnyMap.removed_last m2 GetTypeName K _
      (((s0.Add V k v).Add V2 k v2).Remove k).1 hg2).1
    have h3 := FUnrealAnyMap.GetAnyValueMap_of_Find_none _ GetTypeName K h1
    exact ⟨FUnrealAnyMap.Num_of_GetAnyValueMap_none _ GetTypeName K h3, h3, h1⟩


/-- Witness of C17: on the empty map `Add(1, 5)` under `int` raises `Num<int>()` by
one; on the map holding that entry `Add(1, "five")` leaves it unchanged. -/
theorem C17_entry_count_under_add_witness :
    (ExNew.Add ExKey.name ExKey.int ExVal.int (1 : Int) (5 : Int)).Num ExKey.name ExKey.int
        = ExNew.Num ExKey.name ExKey.int + 1 ∧
      (ExOne.Add ExKey.name ExKey.int ExVal.fstring (1 : Int) "five").Num ExKey.name
          ExKey.int = ExOne.Num ExKey.name ExKey.int ∧
      (ExNew.Num ExKey.name ExKey.int = 0 ∧
        (((ExNew.Add ExKey.name ExKey.int ExVal.int (1 : Int) (5 : Int)).Add ExKey.name
            ExKey.int ExVal.fstring (1 : Int) "five").Remove ExKey.name ExKey.int
            (1 : Int)).1.Num ExKey.name ExKey.int = 0) :=
  have a := C17_entry_count_under_add ExNew ExKey.name ExKey.int ExVal.int ExVal.fstring
    (1 : Int) (5 : Int) "five"
  have b := C17_entry_count_under_add ExOne ExKey.name ExKey.int ExVal.fstring ExVal.fstring
    (1 : Int) "five" "five"
  have habs : ∀ s, ExNew.GetAnyValueMap ExKey.name ExKey.int = some s →
      s.Map.Find (1 : Int) = none := by
    intro s hs
    have hnone : ExNew.GetAnyValueMap ExKey.name ExKey.int = none := rfl
    rw [hnone] at hs
    cases hs
  have hex : ∃ s, ExOne.GetAnyValueMap ExKey.name ExKey.int = some s ∧
      (s.Map.Find (1 : Int)).isSome = true :=
    ⟨ExStore.Add ExVal.int (1 : Int) (5 : Int), rfl, rfl⟩
  have h0 : ExNew.Num ExKey.name ExKey.int = 0 := rfl
  ⟨a.1 habs, b.2.1 hex, h0, (a.2.2 h0).1⟩

/-- C19. A failed `Remove` is a no-op: whenever `Remove<K>(k)` returns false the
composite map is unchanged, with the same `NumKeyTypes()` and the same `Num` and
`Get` results for every key type; `Remove` on an empty store retained by `Empty<K>`
with a positive hint returns false and keeps that store; and a `Remove` after which
the store for `K` is gone returned true and erased the only entry of that store. -/
theorem C19_failed_remove_is_noop (m : FUnrealAnyMap Tag KEl VEl) (GetTypeName : KTy → Tag)
    (K : KTy) (k : KEl K) (hint : Int) :
    ((m.Remove GetTypeName K k).2 = false →
        (m.Remove GetTypeName K k).1 = m ∧
          (m.Remove GetTypeName K k).1.NumKeyTypes = m.NumKeyTypes ∧
          (∀ J : KTy, (m.Remove GetTypeName K k).1.Num GetTypeName J = m.Num GetTypeName J) ∧
          (∀ (J : KTy) (W : VTy) (j : KEl J) (out : VEl W),
            (m.Remove GetTypeName K k).1.Get GetTypeName J W j out
              = m.Get GetTypeName J W j out)) ∧
      ((m.GetAnyValueMap GetTypeName K).isSome = true → 0 < hint →
        ((m.EmptySubMap GetTypeName K hint).1.Remove GetTypeName K k).2 = false ∧
          ((m.EmptySubMap GetTypeName K hint).1.Remove GetTypeName K k).1
            = (m.EmptySubMap GetTypeName K hint).1 ∧
          (((m.EmptySubMap GetTypeName K hint).1.Remove GetTypeName K k).1.GetAnyValueMap
            GetTypeName K).isSome = true) ∧
      ((m.GetAnyValueMap GetTypeName K).isSome = true →
        (m.Remove GetTypeName K k).1.GetAnyValueMap GetTypeName K = none →
        (m.Remove GetTypeName K k).2 = true ∧
          ∃ s, m.GetAnyValueMap GetTypeName K = some s ∧ (s.Map.Find k).isSome = true ∧
            s.Num = 1) := by
  have noop : ∀ n : FUnrealAnyMap Tag KEl VEl, (n.Remove GetTypeName K k).2 = false →
      (n.Remove GetTypeName K k).1 = n := by
    intro n hr
    cases hg : n.GetAnyValueMap GetTypeName K with
    | none => rw [FUnrealAnyMap.Remove_eq_of_none n GetTypeName K k hg]
    | some s =>
      cases hf : (s.Map.Find k).isSome with
      | false =>
        have hf2 : s.Map.Find k = none := by simpa using hf
        rw [FUnrealAnyMap.Remove_eq_self_of_absent n GetTypeName K k s hg hf2]
      | true =>
        have ht := (FUnrealAnyMap.Remove_snd_iff n GetTypeName K k).2 ⟨s, hg, hf⟩
        rw [ht] at hr
        cases hr
  refine ⟨?_, ?_, ?_⟩
  · intro hr
    rw [noop m hr]
    exact ⟨rfl, rfl, fun _ => rfl, fun _ _ _ _ => rfl⟩
  · intro hg hh
    obtain ⟨s, hs⟩ := Option.isSome_iff_exists.1 hg
    rw [FUnrealAnyMap.EmptySubMap_eq_of_pos m GetTypeName K hint s hs hh]
    have h1 := FUnrealAnyMap.GetAnyValueMap_Write_same m GetTypeName K s ⟨TMap.empty⟩ hs
    have h2 := FUnrealAnyMap.Remove_eq_self_of_absent
      (m.WriteAnyValueMap GetTypeName K ⟨TMap.empty⟩) GetTypeName K k ⟨TMap.empty⟩ h1 rfl
    rw [h2]
    refine ⟨rfl, rfl, ?_⟩
    show ((m.WriteAnyValueMap GetTypeName K ⟨TMap.empty⟩).GetAnyValueMap GetTypeName K).isSome
      = true
    rw [h1]
    rfl
  · intro hg hgone
    obtain ⟨s, hs⟩ := Option.isSome_iff_exists.1 hg
    have hr : (m.Remove GetTypeName K k).2 = true := by
      cases hr : (m.Remove GetTypeName K k).2 with
      | true => rfl
      | false =>
        rw [noop m hr, hs] at hgone
        cases hgone
    refine ⟨hr, s, hs, ?_⟩
    obtain ⟨r, hr1, hr2⟩ := (FUnrealAnyMap.Remove_snd_iff m GetTypeName K k).1 hr
    rw [hs] at hr1
    cases hr1
    refine ⟨hr2, ?_⟩
    by_cases hn : (s.Remove k).1.Num = 0
    · have h1 := FUnrealAnyValueMap.Store_Num_Remove s k
      rw [hr2, hn] at h1
      simpa using h1.symm
    · rw [FUnrealAnyMap.Remove_eq_of_more m GetTypeName K k s hs hr2 hn,
        FUnrealAnyMap.GetAnyValueMap_Write_same m GetTypeName K s _ hs] at hgone
      cases hgone


/-- Witness of C19: on the map holding the `int` entry under key 1, `Remove(2)`
under `int` fails and changes nothing, and after `Empty<int>(16)` the call
`Remove(1)` fails and keeps the empty store. -/
theorem C19_failed_remove_is_noop_witness :
    ((ExOne.Remove ExKey.name ExKey.int (2 : Int)).2 = false ∧
        (ExOne.Remove ExKey.name ExKey.int (2 : Int)).1 = ExOne) ∧
      ((ExOne.GetAnyValueMap ExKey.name ExKey.int).isSome = true ∧
        ((ExOne.EmptySubMap ExKey.name ExKey.int 16).1.Remove ExKey.name ExKey.int
          (1 : Int)).2 = false ∧
        (((ExOne.EmptySubMap ExKey.name ExKey.int 16).1.Remove ExKey.name ExKey.int
          (1 : Int)).1.GetAnyValueMap ExKey.name ExKey.int).isSome = true) :=
  have a := C19_failed_remove_is_noop ExOne ExKey.name ExKey.int (2 : Int) 16
  have b := C19_failed_remove_is_noop ExOne ExKey.name ExKey.int (1 : Int) 16
  have hr : (ExOne.Remove ExKey.name ExKey.int (2 : Int)).2 = false := by decide
  have hs : (ExOne.GetAnyValueMap ExKey.name ExKey.int).isSome = true := by decide
  ⟨⟨hr, (a.1 hr).1⟩, hs, (b.2.1 hs (by decide)).1, (b.2.1 hs (by decide)).2.2⟩

/-- C20. Store typing and null-safety of `Add`: when distinct key types have
distinct type names, in every state reached by a sequence of calls on a fresh map
the entry under the type name of `K` holds a store of key type `K`, so the downcast
in `GetAnyValueMap_Internal_Const` succeeds whenever the name is found and the
function returns null only when the name is absent; the downcast in
`CreateAnyValueMap_Internal` succeeds, and `Add_Internal` never dereferences a null
store pointer. -/
theorem C20_store_typing_null_safety (GetTypeName : KTy → Tag)
    (hinj : Function.Injective GetTypeName) (calls : List (Call KEl VEl)) :
    (∀ (K : KTy) (a : StdAny (FUnrealAnyValueMap KEl VEl)),
        (Call.run GetTypeName calls : FUnrealAnyMap Tag KEl VEl).Map.Find (GetTypeName K)
          = some a → a.type = K ∧ (any_cast K a).isSome = true) ∧
      (∀ K : KTy,
        (Call.run GetTypeName calls : FUnrealAnyMap Tag KEl VEl).GetAnyValueMap_Internal_Const
            GetTypeName K = none ↔
          (Call.run GetTypeName calls : FUnrealAnyMap Tag KEl VEl).Map.Find (GetTypeName K)
            = none) ∧
      (∀ K : KTy,
        ((Call.run GetTypeName calls : FUnrealAnyMap Tag KEl VEl).CreateAnyValueMap_Internal
          GetTypeName K).2.isSome = true) ∧
      (∀ (K : KTy) (V : VTy) (k : KEl K) (v : VEl V),
        ((Call.run GetTypeName calls : FUnrealAnyMap Tag KEl VEl).Add_Internal
          GetTypeName K V k v).isSome = true) := by
  have hty := FUnrealAnyMap.typed_of_injective GetTypeName
    (Call.run GetTypeName calls : FUnrealAnyMap Tag KEl VEl) hinj
    (FUnrealAnyMap.StoresTyped_run GetTypeName calls)
  refine ⟨?_, ?_, ?_, ?_⟩
  · intro K a ha
    have ht := hty K a ha
    refine ⟨ht, ?_⟩
    obtain ⟨t, r⟩ := a
    cases ht
    rw [any_cast_mk]
    rfl
  · intro K
    exact FUnrealAnyMap.GetAnyValueMap_eq_none_of_typed _ GetTypeName K (hty K)
  · intro K
    simp [FUnrealAnyMap.CreateAnyValueMap_Internal, any_cast_mk]
  · intro K V k v
    exact FUnrealAnyMap.Add_Internal_isSome _ GetTypeName K V k v

/-- Witness of C20: the three key types have the type names 0, 1 and 2, and the
calls include `Empty<K>` with a positive hint and a whole-map `Empty`. -/
theorem C20_store_typing_null_safety_witness :
    Function.Injective ExKey.name ∧
      (∀ (K : ExKey) (a : StdAny (FUnrealAnyValueMap ExKey.El ExVal.El)),
        (Call.run ExKey.name ExCallsAll : FUnrealAnyMap Nat ExKey.El ExVal.El).Map.Find
          (ExKey.name K) = some a → a.type = K ∧ (any_cast K a).isSome = true) ∧
      (∀ (K : ExKey) (V : ExVal) (k : ExKey.El K) (v : ExVal.El V),
        ((Call.run ExKey.name ExCallsAll : FUnrealAnyMap Nat ExKey.El ExVal.El).Add_Internal
          ExKey.name K V k v).isSome = true) :=
  have hinj : Function.Injective ExKey.name := by
    intro a b hab
    cases a <;> cases b <;> first | rfl | exact absurd hab (by decide)
  have h := C20_store_typing_null_safety ExKey.name hinj ExCallsAll
  ⟨hinj, h.1, h.2.2.2⟩

end Claims

end Cybergem
